import Mathlib

/-!
Verification development for the booking scheduling & execution engine
(`scheduler.py`, `database.py`, `booking_engine.py`, `api.py`,
`redis_persistence.py`).

The Python source is shallowly embedded: pure helpers become Lean
functions, the SQLite store / Redis mirror / APScheduler timer set become
an explicit `EngineState` record, and each engine operation becomes a
state-passing function.  Wall-clock values (`datetime.now()` /
`datetime.utcnow()`) are passed in as explicit parameters.  The
`created_at` / `updated_at` bookkeeping columns, the execution log, and
screenshot paths are omitted: no property below reads them.  Python
exceptions that a function catches internally are modelled by the value
the handler produces; functions whose exceptions escape return `Option`
or `Except`.  Python string primitives (`strip`, `lower`, `split`) are
re-implemented over `List Char` (ASCII fragment, which covers all inputs
the engine handles) because the embedding must evaluate inside the
kernel.
-/

/-! ## String primitives (ASCII fragment of Python `str` methods) -/

/-- ASCII whitespace class of Python's `\s` (`[ \t\n\r\f\v]`). -/
def isWsChar (c : Char) : Bool :=
  c == ' ' || c == '\t' || c == '\n' || c == '\r' || c == '\x0b' || c == '\x0c'

/-- Python `str.strip()` (ASCII whitespace). -/
def pyStrip (s : String) : String :=
  ⟨((s.data.dropWhile isWsChar).reverse.dropWhile isWsChar).reverse⟩

/-- Lowercase one ASCII character (Python `str.lower` on ASCII). -/
def lowerChar (c : Char) : Char :=
  if 65 ≤ c.toNat && c.toNat ≤ 90 then Char.ofNat (c.toNat + 32) else c

/-- Python `str.lower()` (ASCII). -/
def pyLower (s : String) : String :=
  ⟨s.data.map lowerChar⟩

/-- Split a character list at every occurrence of `sep` (Python
`str.split(sep)` semantics: `n` separators yield `n+1` pieces). -/
def splitOnSep (sep : Char) : List Char → List (List Char)
  | [] => [[]]
  | c :: rest =>
    let r := splitOnSep sep rest
    if c == sep then [] :: r
    else
      match r with
      | h :: t => (c :: h) :: t
      | [] => [[c]]

/-- Python `str.split(sep)` for a one-character separator. -/
def pySplit (sep : Char) (s : String) : List String :=
  (splitOnSep sep s.data).map String.mk

/-- Numeric value of a digit character. -/
def digitVal (c : Char) : Nat := c.toNat - '0'.toNat

/-- Decimal value of a digit string (`int(s)` on an all-digit string). -/
def decDigitsToNat (cs : List Char) : Nat :=
  cs.foldl (fun a c => 10 * a + digitVal c) 0

/-- Python `f"{n:02d}"`: decimal rendering padded to at least two digits. -/
def pad2 (n : Nat) : String :=
  if n < 10 then "0" ++ toString n else toString n

/-! ## Calendar dates (Python `datetime.date` fragment) -/

/-- Proleptic Gregorian calendar date, as carried by Python `datetime`. -/
structure Date where
  year : Int
  month : Nat
  day : Nat
deriving DecidableEq, Repr

/-- Gregorian leap-year rule. -/
def isLeapYear (y : Int) : Bool :=
  (y % 4 == 0 && y % 100 != 0) || y % 400 == 0

/-- Number of days of month `m` (1-12) in year `y`. -/
def daysInMonth (y : Int) (m : Nat) : Nat :=
  if m == 2 then (if isLeapYear y then 29 else 28)
  else if m == 4 || m == 6 || m == 9 || m == 11 then 30
  else 31

/-- A date whose month and day are in range. -/
def Date.Valid (d : Date) : Prop :=
  1 ≤ d.month ∧ d.month ≤ 12 ∧ 1 ≤ d.day ∧ d.day ≤ daysInMonth d.year d.month

instance (d : Date) : Decidable d.Valid := by
  unfold Date.Valid; infer_instance

/-- The calendar day before `d` (one step of `timedelta(days=1)` subtraction). -/
def Date.prev (d : Date) : Date :=
  if 1 < d.day then ⟨d.year, d.month, d.day - 1⟩
  else if 1 < d.month then ⟨d.year, d.month - 1, daysInMonth d.year (d.month - 1)⟩
  else ⟨d.year - 1, 12, 31⟩

/-- The calendar day after `d` (`date + timedelta(days=1)`). -/
def Date.next (d : Date) : Date :=
  if d.day < daysInMonth d.year d.month then ⟨d.year, d.month, d.day + 1⟩
  else if d.month < 12 then ⟨d.year, d.month + 1, 1⟩
  else ⟨d.year + 1, 1, 1⟩

/-- `d - timedelta(days=n)` on the calendar. -/
def Date.subDays (d : Date) : Nat → Date
  | 0 => d
  | n + 1 => (d.subDays n).prev

/-- Strict calendar order (lexicographic on year, month, day; agrees with
chronological order on valid dates, which is what Python comparison
gives). -/
def Date.ltb (a b : Date) : Bool :=
  a.year < b.year || (a.year == b.year &&
    (a.month < b.month || (a.month == b.month && a.day < b.day)))

/-! ## Timestamps (Python `datetime.datetime` fragment) -/

/-- A wall-clock timestamp: date plus time of day. -/
structure DateTime where
  date : Date
  hour : Nat
  minute : Nat
  second : Nat
deriving DecidableEq, Repr

/-- Python `datetime` comparison (lexicographic). -/
def DateTime.ltb (a b : DateTime) : Bool :=
  Date.ltb a.date b.date || (a.date == b.date &&
    (a.hour < b.hour || (a.hour == b.hour &&
      (a.minute < b.minute || (a.minute == b.minute && a.second < b.second)))))

/-- `datetime.strptime(s, "%Y-%m-%d")`: split on `-`, each field a decimal
group (`%Y` up to four digits, `%m`/`%d` up to two), ranges validated;
`none` models the `ValueError` raise. -/
def strptimeYMD (s : String) : Option Date :=
  match pySplit '-' s with
  | [ys, ms, ds] =>
    if ys.data ≠ [] && ys.data.length ≤ 4 && ys.data.all Char.isDigit &&
       ms.data ≠ [] && ms.data.length ≤ 2 && ms.data.all Char.isDigit &&
       ds.data ≠ [] && ds.data.length ≤ 2 && ds.data.all Char.isDigit then
      let y := decDigitsToNat ys.data
      let m := decDigitsToNat ms.data
      let d := decDigitsToNat ds.data
      if 1 ≤ m && m ≤ 12 && 1 ≤ d && d ≤ daysInMonth (Int.ofNat y) m then
        some ⟨Int.ofNat y, m, d⟩
      else none
    else none
  | _ => none

/-- `dt.strftime("%d/%m/%Y")` as used by `prepare_booking_page` and
`find_and_click_time_slot` (years in the engine's inputs have four
digits, so `%Y` prints them unpadded). -/
def strftimeDMY (d : Date) : String :=
  pad2 d.day ++ "/" ++ pad2 d.month ++ "/" ++ toString d.year

/-! ## `BookingEngine.parse_time_to_24hr` (booking_engine.py:403-422)

The Python body lowercases and strips the input, then applies
`re.match(r'(\d{1,2})(?::(\d{2}))?\s*(am|pm)', time_str)`.  `re.match`
anchors at the start only, matches greedily and backtracks; trailing
characters are ignored.  The matcher below reproduces exactly that
search order: two-digit hour before one-digit, minute group present
before absent, `\s*` by maximal munch (safe because `am`/`pm` cannot
start with a whitespace character). -/

/-- Match `\s*(am|pm)` at the head of `cs`, returning the captured
period. -/
def matchAmPm (cs : List Char) : Option String :=
  match cs.dropWhile isWsChar with
  | c1 :: c2 :: _ =>
    if c1 == 'a' && c2 == 'm' then some "am"
    else if c1 == 'p' && c2 == 'm' then some "pm"
    else none
  | _ => none

/-- Match `:(\d{2})` plus an am/pm tail at the head of `cs` (the body of
the optional minute group together with what must follow it). -/
def matchMinutesThen (cs : List Char) : Option (Nat × String) :=
  match cs with
  | c :: m1 :: m2 :: rest =>
    if c == ':' && m1.isDigit && m2.isDigit then
      (matchAmPm rest).map (fun p => (10 * digitVal m1 + digitVal m2, p))
    else none
  | _ => none

/-- Match `(?::(\d{2}))?\s*(am|pm)` at the head of `cs`: the optional
minute group is tried first and abandoned if the rest fails (regex
backtracking). -/
def matchAfterHour (cs : List Char) : Option (Nat × String) :=
  match matchMinutesThen cs with
  | some r => some r
  | none => (matchAmPm cs).map (fun p => (0, p))

/-- Match the whole pattern at the head of `cs`, returning
(hour, minute, period).  The two-digit hour is preferred (greedy
`\d{1,2}`), falling back to one digit. -/
def matchTimePattern (cs : List Char) : Option (Nat × Nat × String) :=
  match cs with
  | c1 :: c2 :: rest =>
    if c1.isDigit then
      if c2.isDigit then
        match matchAfterHour rest with
        | some (m, p) => some (10 * digitVal c1 + digitVal c2, m, p)
        | none =>
          match matchAfterHour (c2 :: rest) with
          | some (m, p) => some (digitVal c1, m, p)
          | none => none
      else
        (matchAfterHour (c2 :: rest)).map (fun mp => (digitVal c1, mp.1, mp.2))
    else none
  | _ => none

/-- `parse_time_to_24hr` (booking_engine.py:403-422).  `none` models the
`ValueError("Invalid time format: ...")` raise. -/
def parse_time_to_24hr (timeStr : String) : Option String :=
  let s := pyLower (pyStrip timeStr)
  match matchTimePattern s.data with
  | none => none
  | some (hour, minute, period) =>
    let hour :=
      if period == "pm" && hour ≠ 12 then hour + 12
      else if period == "am" && hour == 12 then 0
      else hour
    some (pad2 hour ++ ":" ++ pad2 minute ++ ":00")

/-! Grammar predicate for claim C10, written independently of the matcher
as the disjunction of the shapes the claimed grammar accepts at the head
of the string: a one- or two-digit hour group, an optional `:`-prefixed
two-digit minute group, optional whitespace, then `am` or `pm`, with
arbitrary trailing text. -/

/-- Does `cs` start with optional whitespace followed by `am` or `pm`? -/
def beginsAmPm (cs : List Char) : Bool :=
  match cs.dropWhile isWsChar with
  | c1 :: c2 :: _ => (c1 == 'a' && c2 == 'm') || (c1 == 'p' && c2 == 'm')
  | _ => false

/-- Does `cs` begin with `:MM` followed by an am/pm tail? -/
def beginsColonMinutes (cs : List Char) : Bool :=
  match cs with
  | c :: m1 :: m2 :: rest => c == ':' && m1.isDigit && m2.isDigit && beginsAmPm rest
  | _ => false

/-- The `h[:mm](am|pm)` grammar at the head of `cs`. -/
def startsWithTimeGrammar : List Char → Bool
  | c1 :: t1 =>
    c1.isDigit &&
      (beginsAmPm t1 || beginsColonMinutes t1 ||
        (match t1 with
         | c2 :: t2 => c2.isDigit && (beginsAmPm t2 || beginsColonMinutes t2)
         | [] => false))
  | [] => false

/-! ## Slot selection (`find_and_click_time_slot`, booking_engine.py:424-497)

A slot container in the DOM is modelled as its text pieces: the
`span.slot_start` label, the `span.slot-subject-spa` court name (absent
when `text_content` returns nothing), and the two occupancy counters. -/

/-- One availability descriptor as read from the results page. -/
structure SlotDescriptor where
  label : String
  court : Option String
  booked_count : Nat
  total_count : Nat
deriving DecidableEq, Repr

/-- The loop of `find_and_click_time_slot`: scan the containers in DOM
order for the first whose label equals `fullTarget`; a full slot returns
failure immediately (the loop does not continue past the match). -/
def scanSlots (fullTarget : String) : List SlotDescriptor → Bool × Option String
  | [] => (false, none)
  | s :: rest =>
    if pyStrip s.label == fullTarget then
      if s.booked_count ≥ s.total_count then (false, none)
      else (true, s.court.map pyStrip)
    else scanSlots fullTarget rest

/-- `find_and_click_time_slot` (booking_engine.py:424-497).  The whole
body runs inside `try/except` returning `(False, None)` on any error, so
a time-parse or date-parse failure surfaces as an unsuccessful search,
not an exception.  (`dry_run` only skips the click; the return value is
identical.) -/
def find_and_click_time_slot (booking_date time_slot : String)
    (slots : List SlotDescriptor) : Bool × Option String :=
  match parse_time_to_24hr time_slot, strptimeYMD booking_date with
  | some t24, some d => scanSlots (strftimeDMY d ++ " " ++ t24) slots
  | _, _ => (false, none)

/-- Outcome of the slot-selection phase of `execute_booking`. -/
inductive SelectionOutcome where
  | selected (booked_time : String) (court : Option String)
  | unavailable
deriving DecidableEq, Repr

/-- The primary/fallback decision of `execute_booking`
(booking_engine.py:626-651): try `time_primary`; when it fails and a
fallback is configured, try `time_fallback`; when no attempt succeeded
the booking is recorded as unavailable. -/
def execute_booking_selection (booking_date time_primary : String)
    (time_fallback : Option String) (slots : List SlotDescriptor) :
    SelectionOutcome :=
  let r1 := find_and_click_time_slot booking_date time_primary slots
  if r1.1 then .selected time_primary r1.2
  else
    match time_fallback with
    | some fb =>
      let r2 := find_and_click_time_slot booking_date fb slots
      if r2.1 then .selected fb r2.2 else .unavailable
    | none => .unavailable

/-- Declarative reading of the spec's decision rule (§4.4): a time option
is usable when its canonical `date time` label has a matching descriptor
that is not full.  Matching is against the first label occurrence, as the
spec assumes at most one descriptor per label. -/
def optionUsable (booking_date time_slot : String)
    (slots : List SlotDescriptor) : Bool :=
  match parse_time_to_24hr time_slot, strptimeYMD booking_date with
  | some t24, some d =>
    match slots.find? (fun s => pyStrip s.label == strftimeDMY d ++ " " ++ t24) with
    | some s => s.booked_count < s.total_count
    | none => false
  | _, _ => false

/-- Court reported for a usable option (first matching descriptor). -/
def optionCourt (booking_date time_slot : String)
    (slots : List SlotDescriptor) : Option String :=
  match parse_time_to_24hr time_slot, strptimeYMD booking_date with
  | some t24, some d =>
    match slots.find? (fun s => pyStrip s.label == strftimeDMY d ++ " " ++ t24) with
    | some s => s.court.map pyStrip
    | none => none
  | _, _ => none

/-! ## `calculate_execution_time` (scheduler.py:63-90)

`strptime` the date, subtract `timedelta(days=15)`, then `replace` the
time of day with hour 23 and minute `60 - settings.pre_login_minutes`
(default 10). -/

/-- `calculate_execution_time` (scheduler.py:63-90); `none` models the
`ValueError` escaping when the date string does not parse.  The
`pre_login_minutes` setting is a parameter (the deployment default
is 10; `replace` requires `0 ≤ 60 - m ≤ 59`, which holds for the
values the settings accept in practice). -/
def calculate_execution_time (pre_login_minutes : Nat) (booking_date : String) :
    Option DateTime :=
  match strptimeYMD booking_date with
  | none => none
  | some target => some ⟨target.subDays 15, 23, 60 - pre_login_minutes, 0⟩

/-- The spec's formula (§4.1): `compute_execute_at(target_date,
lead_days, offset_before_midnight)` is `target_date - lead_days` days at
`(24:00 - offset)` local time.  Modelled from the spec for comparison
with `calculate_execution_time`. -/
def spec_compute_execute_at (target_date : Date) (lead_days : Nat)
    (offset_before_midnight : Nat) : DateTime :=
  ⟨target_date.subDays lead_days, 23, 60 - offset_before_midnight, 0⟩

/-! ## The midnight timing barrier (`execute_booking`, booking_engine.py:589-608)

The barrier computes a target midnight from the wall clock alone: in PM
hours it is the upcoming midnight (start of tomorrow), in AM hours the
midnight that already passed (start of today); the attempt sleeps until
the target when it is still ahead, otherwise proceeds immediately with a
warning. -/

/-- The `midnight` value computed at booking_engine.py:595-601. -/
def barrier_midnight (now : DateTime) : DateTime :=
  if 12 ≤ now.hour then ⟨now.date.next, 0, 0, 0⟩
  else ⟨now.date, 0, 0, 0⟩

/-- The instant at which the attempt resumes and triggers the
availability refresh: the target midnight if still ahead, otherwise
`now` itself. -/
def barrier_resume (now : DateTime) : DateTime :=
  if DateTime.ltb now (barrier_midnight now) then barrier_midnight now else now

/-- Whether the barrier proceeds immediately (the "already passed"
warning branch). -/
def barrier_proceeds_immediately (now : DateTime) : Bool :=
  !(DateTime.ltb now (barrier_midnight now))

/-- Modelled from the spec (§4.3 step 3, Glossary "Unlock Instant"): the
resource-unlock instant is midnight, lead-time days before the target
date.  The engine's schedule (wake at 23:50 fifteen days before the
target) places this at the midnight that begins fourteen days before the
target date.  No such computation exists in the code; the barrier never
consults the booking's date. -/
def unlock_instant (target_date : Date) : DateTime :=
  ⟨target_date.subDays 14, 0, 0, 0⟩

/-! ## Data model and dual-store state

`Status` is the `status` column of the `bookings` table; `Booking` is a
row (bookkeeping timestamps, log rows and screenshot paths omitted, see
the header).  `EngineState` gathers the SQLite store (`dbBookings`, with
the `AUTOINCREMENT` counter `nextId`), the Redis mirror (`redisDocs`
keyed by id plus the `estelle:booking_queue` pending set `redisQueue`),
the APScheduler job set (`timers`, one possible job per booking id), and
the outbound notifications sent so far. -/

/-- Booking lifecycle status. -/
inductive Status where
  | pending
  | scheduled
  | booked
  | failed
  | cancelled
deriving DecidableEq, Repr

/-- Terminal statuses: recovery never re-arms these (§4.2). -/
def Status.isTerminal : Status → Bool
  | .booked => true
  | .failed => true
  | .cancelled => true
  | _ => false

/-- A `bookings` row / mirrored Redis document. -/
structure Booking where
  id : Nat
  booking_date : String
  time_primary : String
  time_fallback : Option String
  status : Status
  execute_at : DateTime
  court_name : Option String
  booked_time : Option String
  error_message : Option String
deriving DecidableEq, Repr

/-- A notification dispatched through `notifications.notifier`. -/
inductive Notification where
  | booking_success (booking_date booked_time : String)
  | booking_unavailable (booking_date : String)
  | booking_failed (booking_date reason : String)
  | system_error (msg : String)
deriving DecidableEq, Repr

/-- The whole mutable state of the engine process plus its two stores. -/
structure EngineState where
  nextId : Nat
  dbBookings : List Booking
  redisDocs : List Booking
  redisQueue : List Nat
  timers : List Nat
  notifications : List Notification
deriving DecidableEq, Repr

/-- Fresh deployment: empty stores, `AUTOINCREMENT` starts at 1. -/
def initialState : EngineState :=
  ⟨1, [], [], [], [], []⟩

/-- `Database.get_booking` (database.py:232-240): first row with the id
(ids are the primary key, so at most one exists). -/
def db_get_booking (s : EngineState) (id : Nat) : Option Booking :=
  s.dbBookings.find? (fun b => b.id == id)

/-- Status of a booking row, if present. -/
def db_status (s : EngineState) (id : Nat) : Option Status :=
  (db_get_booking s id).map (fun b => b.status)

/-- `RedisBookingStore` document lookup (redis_persistence.py:76-91). -/
def redis_get_booking (s : EngineState) (id : Nat) : Option Booking :=
  s.redisDocs.find? (fun b => b.id == id)

/-- `RedisBookingStore.save_booking` (redis_persistence.py:46-74): store
the document under its key and `SADD` the id to the queue when the
status is pending/scheduled (terminal saves do not remove it here). -/
def redis_save_booking (s : EngineState) (b : Booking) : EngineState :=
  let docs :=
    if s.redisDocs.any (fun x => x.id == b.id) then
      s.redisDocs.map (fun x => if x.id == b.id then b else x)
    else s.redisDocs ++ [b]
  let queue :=
    if b.status == .pending || b.status == .scheduled then
      if s.redisQueue.contains b.id then s.redisQueue else s.redisQueue ++ [b.id]
    else s.redisQueue
  { s with redisDocs := docs, redisQueue := queue }

/-- Python truthiness filter applied by `Database.update_booking_status`
when building the Redis kwargs: `if court_name:` drops both `None` and
the empty string. -/
def truthyStr (o : Option String) : Option String :=
  match o with
  | some c => if c == "" then none else some c
  | none => none

/-- `RedisBookingStore.update_booking_status`
(redis_persistence.py:118-145): rewrite the document's status and the
supplied kwargs, re-save it, then `SREM` the id when the new status is
terminal.  Missing document: no-op (returns False). -/
def redis_update_booking_status (s : EngineState) (id : Nat) (status : Status)
    (court_name booked_time error_message : Option String) : EngineState :=
  match redis_get_booking s id with
  | none => s
  | some doc =>
    let doc' := { doc with
      status := status,
      court_name := if (truthyStr court_name).isSome then court_name else doc.court_name,
      booked_time := if (truthyStr booked_time).isSome then booked_time else doc.booked_time,
      error_message := if error_message.isSome then error_message else doc.error_message }
    let s := redis_save_booking s doc'
    if status == .pending || status == .scheduled then s
    else { s with redisQueue := s.redisQueue.erase id }

/-- The SQL `UPDATE` of `Database.update_booking_status`
(database.py:161-203): `status` and `error_message` are overwritten
(the latter even with NULL), `court_name`/`booked_time` use `COALESCE`
with the old value. -/
def updateRow (status : Status) (court_name booked_time error_message : Option String)
    (b : Booking) : Booking :=
  { b with
    status := status,
    court_name := if court_name.isSome then court_name else b.court_name,
    booked_time := if booked_time.isSome then booked_time else b.booked_time,
    error_message := error_message }

/-- `Database.update_booking_status` (database.py:161-203): SQL update of
every row with the id (a no-op on a missing id), then the Redis mirror
update with the truthy kwargs. -/
def update_booking_status (s : EngineState) (id : Nat) (status : Status)
    (court_name booked_time error_message : Option String) : EngineState :=
  let s' := { s with
    dbBookings := s.dbBookings.map
      (fun b => if b.id == id then updateRow status court_name booked_time error_message b else b) }
  redis_update_booking_status s' id status (truthyStr court_name)
    (truthyStr booked_time) error_message

/-- `Database.create_booking` (database.py:93-131): insert a pending row
with the next id and write-through to Redis.  Returns the new id. -/
def create_booking (s : EngineState) (booking_date time_primary : String)
    (time_fallback : Option String) (execute_at : DateTime) :
    EngineState × Nat :=
  let id := s.nextId
  let b : Booking :=
    ⟨id, booking_date, time_primary, time_fallback, .pending, execute_at,
      none, none, none⟩
  let s := { s with nextId := id + 1, dbBookings := s.dbBookings ++ [b] }
  (redis_save_booking s b, id)

/-- `Database.delete_booking` (database.py:275-279): delete the row (and
its log rows).  Note that it does not touch Redis. -/
def db_delete_booking (s : EngineState) (id : Nat) : EngineState :=
  { s with dbBookings := s.dbBookings.filter (fun b => !(b.id == id)) }

/-! ## Scheduler operations (scheduler.py) -/

/-- `BookingScheduler.schedule_booking` (scheduler.py:154-190): missing
booking → log and return (no job, no status change); otherwise replace
any existing job for the id, register one, and set status `scheduled`
(which nulls `error_message`). -/
def schedule_booking (s : EngineState) (id : Nat) : EngineState :=
  match db_get_booking s id with
  | none => s
  | some _ =>
    let s := { s with timers := id :: s.timers.erase id }
    update_booking_status s id .scheduled none none none

/-- `BookingScheduler.cancel_booking` (scheduler.py:261-282): missing
booking → False; otherwise remove the job if present and set status
`cancelled` regardless of the current status. -/
def cancel_booking (s : EngineState) (id : Nat) : EngineState × Bool :=
  match db_get_booking s id with
  | none => (s, false)
  | some _ =>
    let s := { s with timers := s.timers.erase id }
    (update_booking_status s id .cancelled none none none, true)

/-- `BookingScheduler.delete_booking` (scheduler.py:284-300): remove the
job if present and delete the row; returns True without checking that
the booking exists. -/
def scheduler_delete_booking (s : EngineState) (id : Nat) : EngineState × Bool :=
  let s := { s with timers := s.timers.erase id }
  (db_delete_booking s id, true)

/-- Final database/notification effect of one fired attempt
(`_execute_booking_wrapper` + `execute_booking`,
scheduler.py:192-219 / booking_engine.py:553-709), with the browsing
outcome abstracted.  A registered job fires once and is consumed; the
wrapper re-reads the booking and stops when it no longer exists. -/
inductive ExecOutcome where
  | success (court : Option String) (booked_time : String)
  | unavailable
  | unverified
  | crashed (msg : String)
deriving DecidableEq, Repr

/-- Append one outbound notification. -/
def appendNotification (s : EngineState) (n : Notification) : EngineState :=
  { s with notifications := s.notifications ++ [n] }

/-- Timer firing for booking `id` with abstract outcome `o`.  (The job is
consumed before the coroutine runs; removing it does not affect the
store, so the wrapper's re-read `db.get_booking` is taken on `s`.) -/
def fire_timer (s : EngineState) (id : Nat) (o : ExecOutcome) : EngineState :=
  if s.timers.contains id then
    match db_get_booking s id with
    | none => { s with timers := s.timers.erase id }
    | some b =>
      match o with
      | .success court booked_time =>
        appendNotification
          (update_booking_status { s with timers := s.timers.erase id } id
            .booked court (some booked_time) none)
          (.booking_success b.booking_date booked_time)
      | .unavailable =>
        appendNotification
          (update_booking_status { s with timers := s.timers.erase id } id
            .failed none none (some "No availability"))
          (.booking_unavailable b.booking_date)
      | .unverified =>
        appendNotification
          (update_booking_status { s with timers := s.timers.erase id } id
            .failed none none (some "Could not verify confirmation"))
          (.booking_failed b.booking_date "Could not verify booking confirmation")
      | .crashed msg =>
        appendNotification
          (update_booking_status { s with timers := s.timers.erase id } id
            .failed none none (some msg))
          (.booking_failed b.booking_date msg)
  else s

/-- One pass of the loop body of `reschedule_pending_bookings`
(scheduler.py:221-253) for the snapshot entry `b`. -/
def reschedule_step (now : DateTime) (s : EngineState) (b : Booking) : EngineState :=
  if DateTime.ltb b.execute_at now then
    update_booking_status s b.id .failed none none (some "Execution time passed")
  else schedule_booking s b.id

/-- `BookingScheduler.reschedule_pending_bookings` (scheduler.py:221-253):
snapshot the pending then scheduled rows and, for each, either mark it
failed ("Execution time passed", no notification) when its `execute_at`
already passed, or register its timer again.  (`get_all_bookings` orders
each snapshot by `execute_at`; the order only permutes updates of
distinct ids, and is left as stored order here.)  `datetime.now()` is
sampled per iteration in Python; it is one parameter here. -/
def reschedule_pending_bookings (s : EngineState) (now : DateTime) : EngineState :=
  ((s.dbBookings.filter (fun b => b.status == .pending)) ++
    (s.dbBookings.filter (fun b => b.status == .scheduled))).foldl
    (reschedule_step now) s

/-- The FastAPI `startup_event` (api.py:400-408): the only booking work
at process start is `reschedule_pending_bookings`; nothing reads the
Redis mirror or its pending set (`create_booking_from_dict` and
`RedisBookingStore.get_pending_bookings` have no caller). -/
def startup_event (s : EngineState) (now : DateTime) : EngineState :=
  reschedule_pending_bookings s now

/-! ## Bulk CSV intake (scheduler.py:31-61, 92-152)

`csv.DictReader` is modelled for unquoted content: the first non-empty
line is the header, each later non-empty line is split on commas and
zipped with the header.  A data line whose field count differs from the
header's makes the row dict contain a `None` value (short row) or a
`None` key (long row), on which the `strip()` of the cleaning
comprehension raises — that exception escapes `parse_csv_content`, so
such content errors the whole upload. -/

/-- One parsed intake row (the dict appended at scheduler.py:54-58). -/
structure CsvRow where
  date : String
  time_primary : String
  time_fallback : Option String
deriving DecidableEq, Repr

/-- Association-list lookup, Python `dict.get` over the cleaned row
(later duplicate header fields overwrite earlier ones in a Python dict;
header fields are unique in all content considered, where the first
binding is the only one). -/
def rowGet (row : List (String × String)) (key : String) : Option String :=
  (row.find? (fun kv => kv.1 == key)).map (fun kv => kv.2)

/-- The cleaned dict of one data line: header fields zipped with the
line's fields, both stripped. -/
def cleanRow (header : List String) (fields : List String) :
    List (String × String) :=
  (header.zip fields).map (fun kv => (pyStrip kv.1, pyStrip kv.2))

/-- The `for row in reader` body (scheduler.py:39-58): skip rows missing
`Date`/`Time1`, skip rows whose `Status` is not `book` case-insensitively,
otherwise emit the entry (`Time2` empty → `None`). -/
def csvRowEntry (header : List String) (fields : List String) : Option CsvRow :=
  let row := cleanRow header fields
  match rowGet row "Date", rowGet row "Time1" with
  | some d, some t1 =>
    if pyLower ((rowGet row "Status").getD "") == "book" then
      some ⟨d, t1,
        match rowGet row "Time2" with
        | some t2 => if pyStrip t2 == "" then none else some (pyStrip t2)
        | none => none⟩
    else none
  | _, _ => none

/-- `parse_csv_content` (scheduler.py:31-61).  `.error` models the
exception escaping on a malformed (wrong-width) data line. -/
def parse_csv_content (csv_content : String) : Except String (List CsvRow) :=
  match (pySplit '\n' csv_content).filter (fun l => !(l == "")) with
  | [] => .ok []
  | headerLine :: dataLines =>
    let header := (pySplit ',' headerLine).map pyStrip
    dataLines.foldl
      (fun acc line =>
        match acc with
        | .error e => .error e
        | .ok rows =>
          let fields := pySplit ',' line
          if fields.length ≠ header.length then .error "malformed row"
          else
            match csvRowEntry header fields with
            | some r => .ok (rows ++ [r])
            | none => .ok rows)
      (.ok [])

/-- Import summary (the dict returned at scheduler.py:136-141). -/
structure ImportSummary where
  added : Nat
  skipped : Nat
  errors : List String
  total_processed : Nat
deriving DecidableEq, Repr

/-- Loop body of `add_bookings_from_csv` (scheduler.py:104-134) for one
parsed row: a date that fails `strptime` raises inside the row's `try`
and is recorded in `errors` (the message text is abstracted to the
row's date); a passed execution time counts as skipped; otherwise the
booking is created and scheduled. -/
def import_row (pre_login_minutes : Nat) (now : DateTime)
    (acc : EngineState × Nat × Nat × List String) (row : CsvRow) :
    EngineState × Nat × Nat × List String :=
  let (s, added, skipped, errors) := acc
  match calculate_execution_time pre_login_minutes row.date with
  | none => (s, added, skipped, errors ++ [row.date])
  | some t =>
    if DateTime.ltb t now then (s, added, skipped + 1, errors)
    else
      let (s, id) := create_booking s row.date row.time_primary row.time_fallback t
      let s := schedule_booking s id
      (s, added + 1, skipped, errors)

/-- `add_bookings_from_csv` (scheduler.py:92-152): parse, then process
each row under its own `try` so no row's failure aborts the batch;
returns the updated state and the summary.  A parse failure escapes
(`raise` at scheduler.py:152). -/
def add_bookings_from_csv (pre_login_minutes : Nat) (s : EngineState)
    (now : DateTime) (csv_content : String) :
    Except String (EngineState × ImportSummary) :=
  match parse_csv_content csv_content with
  | .error e => .error e
  | .ok rows =>
    let (s, added, skipped, errors) :=
      rows.foldl (import_row pre_login_minutes now) (s, 0, 0, [])
    .ok (s, ⟨added, skipped, errors, rows.length⟩)

/-! ## API endpoints (api.py) -/

/-- HTTP-level outcome of an API call on a booking id. -/
inductive ApiResult where
  | ok
  | notFound
deriving DecidableEq, Repr

/-- `GET /bookings/{id}` (api.py:206-226): 404 when the row is absent. -/
def api_get_booking (s : EngineState) (id : Nat) : ApiResult :=
  if (db_get_booking s id).isSome then .ok else .notFound

/-- `POST /bookings/{id}/cancel` (api.py:253-274): 404 exactly when
`scheduler.cancel_booking` returned False. -/
def api_cancel_booking (s : EngineState) (id : Nat) : EngineState × ApiResult :=
  let (s, success) := cancel_booking s id
  (s, if success then .ok else .notFound)

/-- `DELETE /bookings/{id}` (api.py:229-250): 404 exactly when
`scheduler.delete_booking` returned False. -/
def api_delete_booking (s : EngineState) (id : Nat) : EngineState × ApiResult :=
  let (s, success) := scheduler_delete_booking s id
  (s, if success then .ok else .notFound)

/-! ## Operations of the engine, as one step relation (for §4.2) -/

/-- The operations that can touch a booking's status: intake creation,
(re)scheduling, explicit cancel, explicit delete, a registered timer
firing, and the startup recovery pass. -/
inductive Op where
  | create (booking_date time_primary : String) (time_fallback : Option String)
      (execute_at : DateTime)
  | schedule (id : Nat)
  | cancel (id : Nat)
  | delete (id : Nat)
  | fire (id : Nat) (o : ExecOutcome)
  | recover (now : DateTime)

/-- Effect of one operation on the engine state. -/
def Op.step (s : EngineState) : Op → EngineState
  | .create d tp tf t => (create_booking s d tp tf t).1
  | .schedule id => schedule_booking s id
  | .cancel id => (cancel_booking s id).1
  | .delete id => (scheduler_delete_booking s id).1
  | .fire id o => fire_timer s id o
  | .recover now => reschedule_pending_bookings s now

/-! ## Auxiliary definitions for the claims -/

/-- Declarative description of the rows that `add_bookings_from_csv`
turns into bookings: those whose date parses and whose execution time
has not passed, receiving consecutive ids from `i` and ending up
`scheduled`. -/
def scheduledRowsFrom (pre_login_minutes : Nat) (now : DateTime) :
    Nat → List CsvRow → List Booking
  | _, [] => []
  | i, r :: rs =>
    match calculate_execution_time pre_login_minutes r.date with
    | none => scheduledRowsFrom pre_login_minutes now i rs
    | some t =>
      if DateTime.ltb t now then scheduledRowsFrom pre_login_minutes now i rs
      else
        ⟨i, r.date, r.time_primary, r.time_fallback, .scheduled, t, none, none, none⟩
          :: scheduledRowsFrom pre_login_minutes now (i + 1) rs

/-- Ids are unique and below the `AUTOINCREMENT` counter — what the
SQLite primary key guarantees for the relational store. -/
def WfIds (s : EngineState) : Prop :=
  (s.dbBookings.map (fun b => b.id)).Nodup ∧ ∀ b ∈ s.dbBookings, b.id < s.nextId

/-- Every registered timer belongs to a booking in status `scheduled` —
the invariant `schedule_booking` establishes and `cancel`/`delete`/firing
maintain. -/
def WfTimers (s : EngineState) : Prop :=
  ∀ id ∈ s.timers, db_status s id = some .scheduled

/-- A booking present only in the durable mirror: mirrored document in
status `scheduled`, id in the pending set, no relational row (the
scale-to-zero recovery scenario of §4.5 / C1). -/
def mirrorOnlyBooking : Booking :=
  ⟨1, "2026-01-16", "7pm", none, .scheduled, ⟨⟨2026, 1, 1⟩, 23, 50, 0⟩,
    none, none, none⟩

/-- Process state at startup for the C1 scenario: SQLite empty (fresh
container disk), Redis holding the booking and its queue entry. -/
def mirrorOnlyState : EngineState :=
  ⟨2, [], [mirrorOnlyBooking], [1], [], []⟩

/-- A relational-store booking whose `execute_at` lies in the past at
startup (the C5 scenario). -/
def staleScheduledBooking : Booking :=
  ⟨1, "2026-01-16", "7pm", none, .scheduled, ⟨⟨2026, 1, 1⟩, 23, 50, 0⟩,
    none, none, none⟩

/-- Startup state for the C5 counterexample: the stale booking present
in both stores. -/
def staleState : EngineState :=
  ⟨2, [staleScheduledBooking], [staleScheduledBooking], [1], [], []⟩

/-- State reached from a fresh deployment by: create a booking, schedule
it, and let its timer fire with a successful attempt (C3 scenario). -/
def bookedRunState : EngineState :=
  fire_timer
    (schedule_booking
      (create_booking initialState "2026-02-15" "7pm" none
        ⟨⟨2026, 1, 31⟩, 23, 50, 0⟩).1
      1)
    1 (.success (some "Court 1") "7pm")

lemma Option_isSome_map {α β : Type} (f : α → β) (o : Option α) :
    (Option.map f o).isSome = o.isSome := by
  cases o <;> rfl

lemma matchAmPm_isSome (cs : List Char) :
    (matchAmPm cs).isSome = beginsAmPm cs := by
  unfold matchAmPm beginsAmPm
  rcases h : cs.dropWhile isWsChar with _ | ⟨c1, _ | ⟨c2, t⟩⟩
  · simp
  · simp
  · by_cases h1 : (c1 == 'a' && c2 == 'm') = true
    · simp [h1]
    · by_cases h2 : (c1 == 'p' && c2 == 'm') = true
      · simp [h1, h2]
      · simp [h1, h2]

lemma digit_not_colon {c : Char} (h : c.isDigit = true) : (c == ':') = false := by
  by_cases hc : c = ':'
  · subst hc; exact absurd h (by decide)
  · simp [hc]

lemma digit_not_a {c : Char} (h : c.isDigit = true) : (c == 'a') = false := by
  by_cases hc : c = 'a'
  · subst hc; exact absurd h (by decide)
  · simp [hc]

lemma digit_not_p {c : Char} (h : c.isDigit = true) : (c == 'p') = false := by
  by_cases hc : c = 'p'
  · subst hc; exact absurd h (by decide)
  · simp [hc]

lemma digit_not_ws {c : Char} (h : c.isDigit = true) : isWsChar c = false := by
  rcases hw : isWsChar c
  · rfl
  · exfalso
    unfold isWsChar at hw
    simp only [Bool.or_eq_true, beq_iff_eq] at hw
    rcases hw with ((((rfl | rfl) | rfl) | rfl) | rfl) | rfl <;>
      exact absurd h (by decide)

lemma beginsAmPm_cons_digit {c : Char} (h : c.isDigit = true) (t : List Char) :
    beginsAmPm (c :: t) = false := by
  unfold beginsAmPm
  rw [List.dropWhile_cons, digit_not_ws h]
  simp only [Bool.false_eq_true, if_false]
  rcases t with _ | ⟨c2, t2⟩
  · rfl
  · simp [digit_not_a h, digit_not_p h]

lemma matchAmPm_cons_digit {c : Char} (h : c.isDigit = true) (t : List Char) :
    matchAmPm (c :: t) = none := by
  have := matchAmPm_isSome (c :: t)
  rw [beginsAmPm_cons_digit h] at this
  rcases hm : matchAmPm (c :: t) with _ | p
  · rfl
  · rw [hm] at this; simp at this

lemma matchAfterHour_isSome (cs : List Char) :
    (matchAfterHour cs).isSome = (beginsColonMinutes cs || beginsAmPm cs) := by
  unfold matchAfterHour matchMinutesThen beginsColonMinutes
  rcases cs with _ | ⟨c, _ | ⟨m1, _ | ⟨m2, rest⟩⟩⟩
  · simp [Option_isSome_map, matchAmPm_isSome]
  · simp [Option_isSome_map, matchAmPm_isSome]
  · simp [Option_isSome_map, matchAmPm_isSome]
  · by_cases hc : (c == ':' && m1.isDigit && m2.isDigit) = true
    · have hb := matchAmPm_isSome rest
      rcases hm : matchAmPm rest with _ | p <;> rw [hm] at hb
      · simp only [Option.isSome_none, Bool.false_eq] at hb
        simp [hc, hm, Option_isSome_map, matchAmPm_isSome, ← hb]
      · simp only [Option.isSome_some, Bool.true_eq] at hb
        simp [hc, hm, ← hb]
    · simp [hc, Option_isSome_map, matchAmPm_isSome]

lemma matchAfterHour_cons_digit {c : Char} (h : c.isDigit = true) (t : List Char) :
    matchAfterHour (c :: t) = none := by
  unfold matchAfterHour matchMinutesThen
  have hne : (c == ':') = false := digit_not_colon h
  have hm : matchAmPm (c :: t) = none := matchAmPm_cons_digit h t
  rcases t with _ | ⟨m1, _ | ⟨m2, rest⟩⟩ <;> simp [hne, hm]

lemma beginsColonMinutes_cons_digit {c : Char} (h : c.isDigit = true)
    (t : List Char) : beginsColonMinutes (c :: t) = false := by
  unfold beginsColonMinutes
  rcases t with _ | ⟨m1, _ | ⟨m2, rest⟩⟩ <;> simp [digit_not_colon h]

lemma matchTimePattern_isSome (cs : List Char) :
    (matchTimePattern cs).isSome = startsWithTimeGrammar cs := by
  unfold matchTimePattern startsWithTimeGrammar
  rcases cs with _ | ⟨c1, _ | ⟨c2, rest⟩⟩
  · simp
  · simp [beginsAmPm, beginsColonMinutes]
  · by_cases h1 : c1.isDigit = true
    · by_cases h2 : c2.isDigit = true
      · have hfb : matchAfterHour (c2 :: rest) = none := matchAfterHour_cons_digit h2 rest
        have hgr := matchAfterHour_isSome rest
        have hba := beginsAmPm_cons_digit h2 rest
        have hbc := beginsColonMinutes_cons_digit h2 rest
        rcases hA : matchAfterHour rest with _ | ⟨m, p⟩ <;> rw [hA] at hgr <;>
          rcases hx : beginsAmPm rest <;> rcases hy : beginsColonMinutes rest <;>
          rw [hx, hy] at hgr <;> simp_all [h1, h2]
      · have hgr := matchAfterHour_isSome (c2 :: rest)
        have h2f : c2.isDigit = false := Bool.eq_false_iff.mpr h2
        rcases hm : matchAfterHour (c2 :: rest) with _ | r <;> rw [hm] at hgr <;>
          rcases hx : beginsAmPm (c2 :: rest) <;>
          rcases hy : beginsColonMinutes (c2 :: rest) <;>
          rw [hx, hy] at hgr <;> simp_all [h1, h2f]
    · simp [h1]

/-! Sanity checks of the canonicalizer against the Python semantics. -/

example : parse_time_to_24hr "7pm" = some "19:00:00" := by decide
example : parse_time_to_24hr "11:30am" = some "11:30:00" := by decide
example : parse_time_to_24hr "12am" = some "00:00:00" := by decide
example : parse_time_to_24hr "12pm" = some "12:00:00" := by decide
example : parse_time_to_24hr "noon" = none := by decide
example : parse_time_to_24hr " 8 PM " = some "20:00:00" := by decide
example : strptimeYMD "2026-02-15" = some ⟨2026, 2, 15⟩ := by decide
example : strptimeYMD "2026-02-30" = none := by decide
example : Date.subDays ⟨2026, 2, 15⟩ 15 = ⟨2026, 1, 31⟩ := by decide
example : strftimeDMY ⟨2026, 2, 15⟩ = "15/02/2026" := by decide

lemma scanSlots_eq_find (fullTarget : String) (slots : List SlotDescriptor) :
    scanSlots fullTarget slots =
      match slots.find? (fun s => pyStrip s.label == fullTarget) with
      | some s =>
        if s.booked_count ≥ s.total_count then (false, none)
        else (true, s.court.map pyStrip)
      | none => (false, none) := by
  induction slots with
  | nil => rfl
  | cons s rest ih =>
    unfold scanSlots
    rcases hs : (pyStrip s.label == fullTarget) with _ | _
    · simp [List.find?, hs, ih]
    · simp [List.find?, hs]

lemma find_and_click_fst (booking_date time_slot : String)
    (slots : List SlotDescriptor) :
    (find_and_click_time_slot booking_date time_slot slots).1 =
      optionUsable booking_date time_slot slots := by
  unfold find_and_click_time_slot optionUsable
  rcases hp : parse_time_to_24hr time_slot with _ | t24 <;>
    rcases hd : strptimeYMD booking_date with _ | d <;> simp
  rw [scanSlots_eq_find]
  rcases hf : List.find? (fun s => pyStrip s.label == strftimeDMY d ++ " " ++ t24)
      slots with _ | s
  · simp [hf]
  · by_cases hb : s.total_count ≤ s.booked_count
    · simp [hf, hb, Nat.not_lt.mpr hb]
    · simp [hf, hb, Nat.lt_of_not_le hb]

lemma find_and_click_snd_of_usable (booking_date time_slot : String)
    (slots : List SlotDescriptor)
    (h : optionUsable booking_date time_slot slots = true) :
    (find_and_click_time_slot booking_date time_slot slots).2 =
      optionCourt booking_date time_slot slots := by
  unfold find_and_click_time_slot optionCourt
  unfold optionUsable at h
  rcases hp : parse_time_to_24hr time_slot with _ | t24
  · simp [hp] at h
  · rcases hd : strptimeYMD booking_date with _ | d
    · simp [hp, hd] at h
    · rw [hp, hd] at h
      simp only [] at h ⊢
      rw [scanSlots_eq_find]
      rcases hf : List.find? (fun s => pyStrip s.label == strftimeDMY d ++ " " ++ t24)
          slots with _ | s
      · rw [hf] at h
        simp at h
      · rw [hf] at h ⊢
        have hns : ¬ s.booked_count ≥ s.total_count := by
          simp only [decide_eq_true_eq] at h
          omega
        simp [hns]

/-! Sanity checks. -/

example : calculate_execution_time 10 "2026-02-15" =
    some ⟨⟨2026, 1, 31⟩, 23, 50, 0⟩ := by decide
example :
    execute_booking_selection "2026-02-15" "7pm" (some "8pm")
      [⟨"15/02/2026 19:00:00", some "Court 1", 1, 1⟩,
       ⟨"15/02/2026 20:00:00", some "Court 2", 0, 1⟩] =
    .selected "8pm" (some "Court 2") := by decide

/-! Sanity checks. -/

example :
    (parse_csv_content "Date,Time1,Time2,Status\n2026-02-15,7pm,8pm,Book").toOption =
      some [⟨"2026-02-15", "7pm", some "8pm"⟩] := by decide
example :
    (parse_csv_content "Date,Time1,Time2,Status\n2026-02-15,7pm,8pm,Skip").toOption =
      some [] := by decide
example :
    (add_bookings_from_csv 10 initialState ⟨⟨2026, 1, 1⟩, 0, 0, 0⟩
      "Date,Time1,Time2,Status\n2026-02-15,7pm,8pm,Book").toOption.map
      (fun r => (r.1.dbBookings, r.2)) =
    some ([⟨1, "2026-02-15", "7pm", some "8pm", .scheduled,
      ⟨⟨2026, 1, 31⟩, 23, 50, 0⟩, none, none, none⟩], ⟨1, 0, [], 1⟩) := by decide

/-! ## Basic facts about the store operations -/

lemma redis_save_dbBookings (s : EngineState) (b : Booking) :
    (redis_save_booking s b).dbBookings = s.dbBookings := rfl

lemma redis_save_timers (s : EngineState) (b : Booking) :
    (redis_save_booking s b).timers = s.timers := rfl

lemma redis_save_notifications (s : EngineState) (b : Booking) :
    (redis_save_booking s b).notifications = s.notifications := rfl

lemma redis_save_nextId (s : EngineState) (b : Booking) :
    (redis_save_booking s b).nextId = s.nextId := rfl

lemma redis_update_dbBookings (s : EngineState) (id : Nat) (st : Status)
    (cn bt em : Option String) :
    (redis_update_booking_status s id st cn bt em).dbBookings = s.dbBookings := by
  unfold redis_update_booking_status
  rcases h : redis_get_booking s id with _ | doc
  · rfl
  · simp only []
    split <;> rfl

lemma redis_update_timers (s : EngineState) (id : Nat) (st : Status)
    (cn bt em : Option String) :
    (redis_update_booking_status s id st cn bt em).timers = s.timers := by
  unfold redis_update_booking_status
  rcases h : redis_get_booking s id with _ | doc
  · rfl
  · simp only []
    split <;> rfl

lemma redis_update_notifications (s : EngineState) (id : Nat) (st : Status)
    (cn bt em : Option String) :
    (redis_update_booking_status s id st cn bt em).notifications = s.notifications := by
  unfold redis_update_booking_status
  rcases h : redis_get_booking s id with _ | doc
  · rfl
  · simp only []
    split <;> rfl

lemma redis_update_nextId (s : EngineState) (id : Nat) (st : Status)
    (cn bt em : Option String) :
    (redis_update_booking_status s id st cn bt em).nextId = s.nextId := by
  unfold redis_update_booking_status
  rcases h : redis_get_booking s id with _ | doc
  · rfl
  · simp only []
    split <;> rfl

lemma updateRow_id (st : Status) (cn bt em : Option String) (b : Booking) :
    (updateRow st cn bt em b).id = b.id := rfl

lemma updateRow_status (st : Status) (cn bt em : Option String) (b : Booking) :
    (updateRow st cn bt em b).status = st := rfl

lemma find?_map_update_other (l : List Booking) (id id' : Nat) (st : Status)
    (cn bt em : Option String) (hne : id ≠ id') :
    (l.map (fun b => if b.id == id' then updateRow st cn bt em b else b)).find?
        (fun b => b.id == id) =
      l.find? (fun b => b.id == id) := by
  induction l with
  | nil => rfl
  | cons b t ih =>
    simp only [List.map_cons]
    by_cases hb : b.id = id
    · have hbi : (b.id == id') = false := by
        rw [hb]; exact beq_eq_false_iff_ne.mpr hne
      rw [hbi]
      simp only [Bool.false_eq_true, if_false]
      rw [List.find?_cons_of_pos _ (by simp [hb]),
        List.find?_cons_of_pos _ (by simp [hb])]
    · have hgid : ((if b.id == id' then updateRow st cn bt em b else b).id) = b.id := by
        split <;> simp [updateRow_id]
      rw [List.find?_cons_of_neg _ (by split <;> simp [updateRow_id, hb]),
        List.find?_cons_of_neg _ (by simp [hb])]
      exact ih

lemma find?_map_update_self (l : List Booking) (id : Nat) (st : Status)
    (cn bt em : Option String) :
    (l.map (fun b => if b.id == id then updateRow st cn bt em b else b)).find?
        (fun b => b.id == id) =
      (l.find? (fun b => b.id == id)).map (updateRow st cn bt em) := by
  induction l with
  | nil => rfl
  | cons b t ih =>
    simp only [List.map_cons]
    by_cases hb : b.id = id
    · rw [if_pos (by simp [hb]),
        List.find?_cons_of_pos _ (by simp [updateRow_id, hb]),
        List.find?_cons_of_pos _ (by simp [hb])]
      rfl
    · rw [if_neg (by simp [hb]),
        List.find?_cons_of_neg _ (by simp [updateRow_id, hb]),
        List.find?_cons_of_neg _ (by simp [hb])]
      exact ih

/-- Master description of the SQL update: the row with the updated id is
mapped through `updateRow`; every other row is untouched. -/
lemma db_get_update (s : EngineState) (id' : Nat) (st : Status)
    (cn bt em : Option String) (id : Nat) :
    db_get_booking (update_booking_status s id' st cn bt em) id =
      if id = id' then
        (db_get_booking s id).map (updateRow st cn bt em)
      else db_get_booking s id := by
  unfold db_get_booking update_booking_status
  rw [redis_update_dbBookings]
  simp only []
  by_cases hid : id = id'
  · subst hid
    rw [if_pos rfl]
    exact find?_map_update_self s.dbBookings id st cn bt em
  · rw [if_neg hid]
    exact find?_map_update_other s.dbBookings id id' st cn bt em hid

lemma update_timers (s : EngineState) (id : Nat) (st : Status)
    (cn bt em : Option String) :
    (update_booking_status s id st cn bt em).timers = s.timers := by
  unfold update_booking_status
  rw [redis_update_timers]

lemma update_notifications (s : EngineState) (id : Nat) (st : Status)
    (cn bt em : Option String) :
    (update_booking_status s id st cn bt em).notifications = s.notifications := by
  unfold update_booking_status
  rw [redis_update_notifications]

lemma update_nextId (s : EngineState) (id : Nat) (st : Status)
    (cn bt em : Option String) :
    (update_booking_status s id st cn bt em).nextId = s.nextId := by
  unfold update_booking_status
  rw [redis_update_nextId]

lemma update_dbBookings_map (s : EngineState) (id : Nat) (st : Status)
    (cn bt em : Option String) :
    (update_booking_status s id st cn bt em).dbBookings =
      s.dbBookings.map
        (fun b => if b.id == id then updateRow st cn bt em b else b) := by
  unfold update_booking_status
  rw [redis_update_dbBookings]

lemma schedule_get (s : EngineState) (id' id : Nat) :
    db_get_booking (schedule_booking s id') id =
      if db_get_booking s id' = none then db_get_booking s id
      else if id = id' then
        (db_get_booking s id).map (updateRow .scheduled none none none)
      else db_get_booking s id := by
  unfold schedule_booking
  rcases h : db_get_booking s id' with _ | b
  · simp [h]
  · rw [if_neg (by simp [h]), db_get_update]
    have hts : db_get_booking { s with timers := id' :: s.timers.erase id' } id =
        db_get_booking s id := rfl
    simp only [hts]

lemma schedule_notifications (s : EngineState) (id : Nat) :
    (schedule_booking s id).notifications = s.notifications := by
  unfold schedule_booking
  rcases h : db_get_booking s id with _ | b
  · rfl
  · rw [update_notifications]

lemma schedule_nextId (s : EngineState) (id : Nat) :
    (schedule_booking s id).nextId = s.nextId := by
  unfold schedule_booking
  rcases h : db_get_booking s id with _ | b
  · rfl
  · rw [update_nextId]

lemma schedule_timers_mem (s : EngineState) (id' a : Nat) (ha : a ∈ s.timers)
    (hne : a ≠ id') : a ∈ (schedule_booking s id').timers := by
  unfold schedule_booking
  rcases h : db_get_booking s id' with _ | b
  · exact ha
  · rw [update_timers]
    exact List.mem_cons_of_mem _ ((List.mem_erase_of_ne hne).mpr ha)

lemma schedule_timers_self (s : EngineState) (id : Nat) (b : Booking)
    (h : db_get_booking s id = some b) :
    id ∈ (schedule_booking s id).timers := by
  unfold schedule_booking
  rw [h]
  simp only []
  rw [update_timers]
  exact List.mem_cons_self id _

lemma reschedule_step_get_other (now : DateTime) (s : EngineState) (x : Booking)
    (id : Nat) (hne : x.id ≠ id) :
    db_get_booking (reschedule_step now s x) id = db_get_booking s id := by
  unfold reschedule_step
  split
  · rw [db_get_update, if_neg (fun h => hne h.symm)]
  · rw [schedule_get]
    split
    · rfl
    · rw [if_neg (fun h => hne h.symm)]

lemma reschedule_step_notifications (now : DateTime) (s : EngineState)
    (x : Booking) :
    (reschedule_step now s x).notifications = s.notifications := by
  unfold reschedule_step
  split
  · rw [update_notifications]
  · rw [schedule_notifications]

lemma reschedule_step_timers_mem (now : DateTime) (s : EngineState) (x : Booking)
    (a : Nat) (ha : a ∈ s.timers) (hne : a ≠ x.id) :
    a ∈ (reschedule_step now s x).timers := by
  unfold reschedule_step
  split
  · rw [update_timers]; exact ha
  · exact schedule_timers_mem s x.id a ha hne

lemma reschedule_fold_get_other (now : DateTime) (l : List Booking) (id : Nat)
    (h : ∀ x ∈ l, x.id ≠ id) :
    ∀ s : EngineState,
      db_get_booking (l.foldl (reschedule_step now) s) id = db_get_booking s id := by
  induction l with
  | nil => intro s; rfl
  | cons x t ih =>
    intro s
    rw [List.foldl_cons,
      ih (fun y hy => h y (List.mem_cons_of_mem x hy)),
      reschedule_step_get_other now s x id (h x (List.mem_cons_self x t))]

lemma reschedule_fold_notifications (now : DateTime) (l : List Booking) :
    ∀ s : EngineState,
      (l.foldl (reschedule_step now) s).notifications = s.notifications := by
  induction l with
  | nil => intro s; rfl
  | cons x t ih =>
    intro s
    rw [List.foldl_cons, ih, reschedule_step_notifications]

lemma reschedule_fold_timers_mem (now : DateTime) (l : List Booking) (a : Nat)
    (h : ∀ x ∈ l, x.id ≠ a) :
    ∀ s : EngineState, a ∈ s.timers →
      a ∈ (l.foldl (reschedule_step now) s).timers := by
  induction l with
  | nil => intro s ha; exact ha
  | cons x t ih =>
    intro s ha
    rw [List.foldl_cons]
    exact ih (fun y hy => h y (List.mem_cons_of_mem x hy)) _
      (reschedule_step_timers_mem now s x a ha
        (fun he => h x (List.mem_cons_self x t) he.symm))

lemma reschedule_fold_status_cases (now : DateTime) (l : List Booking) (id : Nat) :
    ∀ s : EngineState,
      db_get_booking (l.foldl (reschedule_step now) s) id = db_get_booking s id ∨
      ∃ bb, db_get_booking (l.foldl (reschedule_step now) s) id = some bb ∧
        (bb.status = .failed ∨ bb.status = .scheduled) := by
  induction l with
  | nil => intro s; exact Or.inl rfl
  | cons x t ih =>
    intro s
    rw [List.foldl_cons]
    rcases ih (reschedule_step now s x) with hsame | hstep
    · rw [hsame]
      by_cases hx : x.id = id
      · subst hx
        unfold reschedule_step
        split
        · rw [db_get_update, if_pos rfl]
          rcases hg : db_get_booking s x.id with _ | bb
          · exact Or.inl rfl
          · exact Or.inr ⟨updateRow .failed none none (some "Execution time passed") bb,
              rfl, Or.inl rfl⟩
        · rw [schedule_get]
          rcases hg : db_get_booking s x.id with _ | bb
          · exact Or.inl (by simp)
          · rw [if_neg (by simp), if_pos rfl]
            exact Or.inr ⟨updateRow .scheduled none none none bb, rfl, Or.inr rfl⟩
      · rw [reschedule_step_get_other now s x id hx]
        exact Or.inl rfl
    · exact Or.inr hstep

lemma reschedule_step_get_self (now : DateTime) (s : EngineState) (b bb : Booking)
    (hg : db_get_booking s b.id = some bb) :
    db_get_booking (reschedule_step now s b) b.id =
      if DateTime.ltb b.execute_at now then
        some (updateRow .failed none none (some "Execution time passed") bb)
      else some (updateRow .scheduled none none none bb) := by
  unfold reschedule_step
  by_cases hpast : DateTime.ltb b.execute_at now
  · rw [if_pos hpast, if_pos hpast, db_get_update, if_pos rfl, hg]
    rfl
  · rw [if_neg hpast, if_neg hpast, schedule_get, if_neg (by simp [hg]),
      if_pos rfl, hg]
    rfl

lemma reschedule_step_timers_self (now : DateTime) (s : EngineState)
    (b bb : Booking) (hg : db_get_booking s b.id = some bb)
    (hfuture : DateTime.ltb b.execute_at now = false) :
    b.id ∈ (reschedule_step now s b).timers := by
  unfold reschedule_step
  rw [if_neg (by simp [hfuture])]
  exact schedule_timers_self _ b.id bb hg

lemma reschedule_fold_eval (now : DateTime) (b : Booking) (l₁ l₂ : List Booking)
    (h1 : ∀ x ∈ l₁, x.id ≠ b.id) (h2 : ∀ x ∈ l₂, x.id ≠ b.id) (s : EngineState)
    (hb : db_get_booking s b.id = some b) :
    if DateTime.ltb b.execute_at now then
      db_get_booking ((l₁ ++ b :: l₂).foldl (reschedule_step now) s) b.id =
        some (updateRow .failed none none (some "Execution time passed") b)
    else
      db_get_booking ((l₁ ++ b :: l₂).foldl (reschedule_step now) s) b.id =
        some (updateRow .scheduled none none none b) ∧
      b.id ∈ ((l₁ ++ b :: l₂).foldl (reschedule_step now) s).timers := by
  rw [List.foldl_append, List.foldl_cons]
  have hget1 : db_get_booking (l₁.foldl (reschedule_step now) s) b.id = some b := by
    rw [reschedule_fold_get_other now l₁ b.id h1 s, hb]
  have hstep := reschedule_step_get_self now (l₁.foldl (reschedule_step now) s) b b hget1
  by_cases hpast : DateTime.ltb b.execute_at now
  · rw [if_pos hpast]
    rw [if_pos hpast] at hstep
    rw [reschedule_fold_get_other now l₂ b.id h2 _, hstep]
  · rw [if_neg hpast]
    rw [if_neg hpast] at hstep
    constructor
    · rw [reschedule_fold_get_other now l₂ b.id h2 _, hstep]
    · apply reschedule_fold_timers_mem now l₂ b.id (fun x hx he => h2 x hx he)
      exact reschedule_step_timers_self now _ b b hget1
        (Bool.eq_false_iff.mpr hpast)

lemma count_one_split {α : Type} [DecidableEq α] (l : List α) (a : α)
    (hmem : a ∈ l) (hcount : l.count a ≤ 1) :
    ∃ l₁ l₂, l = l₁ ++ a :: l₂ ∧ a ∉ l₁ ∧ a ∉ l₂ := by
  induction l with
  | nil => cases hmem
  | cons x t ih =>
    by_cases hx : x = a
    · subst hx
      refine ⟨[], t, rfl, List.not_mem_nil x, ?_⟩
      intro hmem'
      rw [List.count_cons_self] at hcount
      have := List.count_pos_iff.mpr hmem'
      omega
    · have hmem' : a ∈ t := by
        rcases List.mem_cons.mp hmem with h | h
        · exact absurd h.symm hx
        · exact h
      have hcount' : t.count a ≤ 1 := by
        rw [List.count_cons_of_ne (fun h => hx h.symm)] at hcount
        exact hcount
      obtain ⟨l₁, l₂, heq, hn1, hn2⟩ := ih hmem' hcount'
      refine ⟨x :: l₁, l₂, by rw [heq]; rfl, ?_, hn2⟩
      intro hmem''
      rcases List.mem_cons.mp hmem'' with h | h
      · exact hx h.symm
      · exact hn1 h

/-- The startup snapshot (pending rows, then scheduled rows) contains the
booking `b` exactly once, with no other entry sharing its id. -/
lemma snapshot_split (s : EngineState) (b : Booking)
    (hnd : (s.dbBookings.map (fun x => x.id)).Nodup)
    (hb : db_get_booking s b.id = some b)
    (hst : b.status = .pending ∨ b.status = .scheduled) :
    ∃ l₁ l₂,
      (s.dbBookings.filter (fun x => x.status == .pending)) ++
        (s.dbBookings.filter (fun x => x.status == .scheduled)) = l₁ ++ b :: l₂ ∧
      (∀ x ∈ l₁, x.id ≠ b.id) ∧ (∀ x ∈ l₂, x.id ≠ b.id) := by
  have hmemdb : b ∈ s.dbBookings := List.mem_of_find?_eq_some hb
  have hnodup : s.dbBookings.Nodup := List.Nodup.of_map _ hnd
  have hinj : ∀ x ∈ s.dbBookings, ∀ y ∈ s.dbBookings, x.id = y.id → x = y := by
    intro x hx y hy hxy
    exact List.inj_on_of_nodup_map hnd hx hy hxy
  have hcount_db : s.dbBookings.count b ≤ 1 :=
    List.nodup_iff_count_le_one.mp hnodup b
  have hcp : (s.dbBookings.filter (fun x => x.status == .pending)).count b ≤
      s.dbBookings.count b := (List.filter_sublist _).count_le b
  have hcs : (s.dbBookings.filter (fun x => x.status == .scheduled)).count b ≤
      s.dbBookings.count b := (List.filter_sublist _).count_le b
  have honefilter :
      (s.dbBookings.filter (fun x => x.status == .pending)).count b = 0 ∨
      (s.dbBookings.filter (fun x => x.status == .scheduled)).count b = 0 := by
    rcases hst with h | h
    · right
      apply List.count_eq_zero.mpr
      intro hmem
      have := (List.mem_filter.mp hmem).2
      rw [h] at this
      simp at this
    · left
      apply List.count_eq_zero.mpr
      intro hmem
      have := (List.mem_filter.mp hmem).2
      rw [h] at this
      simp at this
  have hmemL : b ∈ (s.dbBookings.filter (fun x => x.status == .pending)) ++
      (s.dbBookings.filter (fun x => x.status == .scheduled)) := by
    rcases hst with h | h
    · exact List.mem_append_left _ (List.mem_filter.mpr ⟨hmemdb, by simp [h]⟩)
    · exact List.mem_append_right _ (List.mem_filter.mpr ⟨hmemdb, by simp [h]⟩)
  have hcountL : ((s.dbBookings.filter (fun x => x.status == .pending)) ++
      (s.dbBookings.filter (fun x => x.status == .scheduled))).count b ≤ 1 := by
    rw [List.count_append]
    rcases honefilter with h | h <;> omega
  obtain ⟨l₁, l₂, heq, hn1, hn2⟩ := count_one_split _ b hmemL hcountL
  have hsubL : ∀ x, x ∈ l₁ ∨ x ∈ l₂ → x ∈ s.dbBookings := by
    intro x hx
    have hxL : x ∈ (s.dbBookings.filter (fun y => y.status == .pending)) ++
        (s.dbBookings.filter (fun y => y.status == .scheduled)) := by
      rw [heq]
      rcases hx with h | h
      · exact List.mem_append_left _ h
      · exact List.mem_append_right _ (List.mem_cons_of_mem _ h)
    rcases List.mem_append.mp hxL with h | h
    · exact (List.mem_filter.mp h).1
    · exact (List.mem_filter.mp h).1
  refine ⟨l₁, l₂, heq, ?_, ?_⟩
  · intro x hx hxid
    exact hn1 (hinj x (hsubL x (Or.inl hx)) b hmemdb hxid ▸ hx)
  · intro x hx hxid
    exact hn2 (hinj x (hsubL x (Or.inr hx)) b hmemdb hxid ▸ hx)

/-! ## Calendar facts -/

lemma daysInMonth_pos (y : Int) (m : Nat) : 1 ≤ daysInMonth y m := by
  unfold daysInMonth
  split
  · split <;> omega
  · split <;> omega

lemma daysInMonth_twelve (y : Int) : daysInMonth y 12 = 31 := rfl

lemma Date.prev_valid {d : Date} (h : d.Valid) : d.prev.Valid := by
  obtain ⟨y, m, day⟩ := d
  obtain ⟨h1, h2, h3, h4⟩ := h
  have H1 : 1 ≤ m := h1
  have H2 : m ≤ 12 := h2
  have H3 : 1 ≤ day := h3
  have H4 : day ≤ daysInMonth y m := h4
  unfold Date.prev
  by_cases hd : 1 < day
  · rw [if_pos hd]
    exact ⟨H1, H2, by show 1 ≤ day - 1; omega,
      by show day - 1 ≤ daysInMonth y m; omega⟩
  · rw [if_neg hd]
    by_cases hm : 1 < m
    · rw [if_pos hm]
      exact ⟨by show 1 ≤ m - 1; omega, by show m - 1 ≤ 12; omega,
        by show 1 ≤ daysInMonth y (m - 1); exact daysInMonth_pos _ _,
        by show daysInMonth y (m - 1) ≤ daysInMonth y (m - 1); exact Nat.le_refl _⟩
    · rw [if_neg hm]
      exact ⟨by show 1 ≤ 12; omega, by show 12 ≤ 12; omega,
        by show 1 ≤ 31; omega,
        by show 31 ≤ daysInMonth (y - 1) 12; rw [daysInMonth_twelve]⟩

lemma Date.subDays_valid {d : Date} (h : d.Valid) (n : Nat) :
    (d.subDays n).Valid := by
  induction n with
  | zero => exact h
  | succ k ih => exact Date.prev_valid ih

lemma Date.next_prev {d : Date} (h : d.Valid) : d.prev.next = d := by
  obtain ⟨y, m, day⟩ := d
  obtain ⟨h1, h2, h3, h4⟩ := h
  have H1 : 1 ≤ m := h1
  have H2 : m ≤ 12 := h2
  have H3 : 1 ≤ day := h3
  have H4 : day ≤ daysInMonth y m := h4
  unfold Date.prev
  by_cases hd : 1 < day
  · rw [if_pos hd]
    show Date.next ⟨y, m, day - 1⟩ = ⟨y, m, day⟩
    unfold Date.next
    rw [if_pos (show day - 1 < daysInMonth y m by omega)]
    show (⟨y, m, day - 1 + 1⟩ : Date) = ⟨y, m, day⟩
    exact congrArg (fun dd => Date.mk y m dd) (by omega)
  · rw [if_neg hd]
    have hday : day = 1 := by omega
    by_cases hm : 1 < m
    · rw [if_pos hm]
      show Date.next ⟨y, m - 1, daysInMonth y (m - 1)⟩ = ⟨y, m, day⟩
      unfold Date.next
      rw [if_neg (show ¬ daysInMonth y (m - 1) < daysInMonth y (m - 1) by omega),
        if_pos (show m - 1 < 12 by omega)]
      show (⟨y, m - 1 + 1, 1⟩ : Date) = ⟨y, m, day⟩
      rw [hday]
      exact congrArg (fun mm => Date.mk y mm 1) (by omega)
    · rw [if_neg hm]
      have hmon : m = 1 := by omega
      show Date.next ⟨y - 1, 12, 31⟩ = ⟨y, m, day⟩
      unfold Date.next
      rw [if_neg (show ¬ (31 : Nat) < daysInMonth (y - 1) 12 by
            rw [daysInMonth_twelve]; omega),
        if_neg (show ¬ (12 : Nat) < 12 by omega)]
      show (⟨y - 1 + 1, 1, 1⟩ : Date) = ⟨y, m, day⟩
      rw [hday, hmon]
      exact congrArg (fun yy => Date.mk yy 1 1) (by omega)

lemma Date.ltb_next (d : Date) : Date.ltb d d.next = true := by
  unfold Date.next Date.ltb
  by_cases h1 : d.day < daysInMonth d.year d.month
  · rw [if_pos h1]
    simp
  · rw [if_neg h1]
    by_cases h2 : d.month < 12
    · rw [if_pos h2]
      simp [h2]
    · rw [if_neg h2]
      simp

/-! ## Effects of create, cancel, delete and timer firing -/

lemma find?_append {α : Type} (p : α → Bool) (l₁ l₂ : List α) :
    (l₁ ++ l₂).find? p =
      match l₁.find? p with
      | some x => some x
      | none => l₂.find? p := by
  induction l₁ with
  | nil => rfl
  | cons x t ih =>
    by_cases hx : p x = true
    · rw [List.cons_append, List.find?_cons_of_pos _ hx,
        List.find?_cons_of_pos _ hx]
    · rw [List.cons_append, List.find?_cons_of_neg _ (by simp [hx]),
        List.find?_cons_of_neg _ (by simp [hx]), ih]

lemma find?_filter_self (l : List Booking) (id : Nat) :
    (l.filter (fun b => !(b.id == id))).find? (fun b => b.id == id) = none := by
  induction l with
  | nil => rfl
  | cons b t ih =>
    by_cases hb : b.id = id
    · rw [List.filter_cons_of_neg (by simp [hb])]
      exact ih
    · rw [List.filter_cons_of_pos (by simp [hb]),
        List.find?_cons_of_neg _ (by simp [hb])]
      exact ih

lemma find?_filter_other (l : List Booking) (id id' : Nat) (hne : id ≠ id') :
    (l.filter (fun b => !(b.id == id'))).find? (fun b => b.id == id) =
      l.find? (fun b => b.id == id) := by
  induction l with
  | nil => rfl
  | cons b t ih =>
    by_cases hb : b.id = id
    · rw [List.filter_cons_of_pos (by simp [hb]; omega),
        List.find?_cons_of_pos _ (by simp [hb]),
        List.find?_cons_of_pos _ (by simp [hb])]
    · by_cases hb' : b.id = id'
      · rw [List.filter_cons_of_neg (by simp [hb']),
          List.find?_cons_of_neg _ (by simp [hb]), ih]
      · rw [List.filter_cons_of_pos (by simp [hb']),
          List.find?_cons_of_neg _ (by simp [hb]),
          List.find?_cons_of_neg _ (by simp [hb]), ih]

lemma create_dbBookings (s : EngineState) (d tp : String) (tf : Option String)
    (t : DateTime) :
    (create_booking s d tp tf t).1.dbBookings =
      s.dbBookings ++ [⟨s.nextId, d, tp, tf, .pending, t, none, none, none⟩] := rfl

lemma create_snd (s : EngineState) (d tp : String) (tf : Option String)
    (t : DateTime) :
    (create_booking s d tp tf t).2 = s.nextId := rfl

lemma create_nextId (s : EngineState) (d tp : String) (tf : Option String)
    (t : DateTime) :
    (create_booking s d tp tf t).1.nextId = s.nextId + 1 := rfl

lemma create_timers (s : EngineState) (d tp : String) (tf : Option String)
    (t : DateTime) :
    (create_booking s d tp tf t).1.timers = s.timers := rfl

lemma create_get_new (s : EngineState) (d tp : String) (tf : Option String)
    (t : DateTime) (hw : ∀ b ∈ s.dbBookings, b.id ≠ s.nextId) :
    db_get_booking (create_booking s d tp tf t).1 s.nextId =
      some ⟨s.nextId, d, tp, tf, .pending, t, none, none, none⟩ := by
  unfold db_get_booking
  rw [create_dbBookings, find?_append]
  have hfind : s.dbBookings.find? (fun b => b.id == s.nextId) = none := by
    rw [List.find?_eq_none]
    intro b hb
    simp [hw b hb]
  rw [hfind]
  simp [List.find?]

lemma create_get_old (s : EngineState) (d tp : String) (tf : Option String)
    (t : DateTime) (id : Nat) (hne : id ≠ s.nextId) :
    db_get_booking (create_booking s d tp tf t).1 id = db_get_booking s id := by
  unfold db_get_booking
  rw [create_dbBookings, find?_append]
  rcases hf : s.dbBookings.find? (fun b => b.id == id) with _ | b
  · simp only [hf]
    have hb : (s.nextId == id) = false := by
      simp
      omega
    simp [List.find?, hb]
  · simp only [hf]

lemma cancel_get (s : EngineState) (id' id : Nat) :
    db_get_booking (cancel_booking s id').1 id =
      if db_get_booking s id' = none then db_get_booking s id
      else if id = id' then
        (db_get_booking s id).map (updateRow .cancelled none none none)
      else db_get_booking s id := by
  unfold cancel_booking
  rcases h : db_get_booking s id' with _ | b
  · simp [h]
  · rw [if_neg (by simp [h]), db_get_update]
    have hts : db_get_booking { s with timers := s.timers.erase id' } id =
        db_get_booking s id := rfl
    simp only [hts]

lemma delete_get_self (s : EngineState) (id : Nat) :
    db_get_booking (scheduler_delete_booking s id).1 id = none := by
  unfold scheduler_delete_booking db_delete_booking db_get_booking
  exact find?_filter_self s.dbBookings id

lemma delete_get_other (s : EngineState) (id' id : Nat) (hne : id ≠ id') :
    db_get_booking (scheduler_delete_booking s id').1 id = db_get_booking s id := by
  unfold scheduler_delete_booking db_delete_booking db_get_booking
  exact find?_filter_other s.dbBookings id id' hne

lemma appendNotification_get (s : EngineState) (n : Notification) (id : Nat) :
    db_get_booking (appendNotification s n) id = db_get_booking s id := rfl

lemma fire_get_other (s : EngineState) (id' : Nat) (o : ExecOutcome) (id : Nat)
    (hne : id ≠ id') :
    db_get_booking (fire_timer s id' o) id = db_get_booking s id := by
  unfold fire_timer
  split
  · rcases h : db_get_booking s id' with _ | b
    · simp only [h]
      rfl
    · simp only [h]
      rcases o with ⟨court, bt⟩ | _ | _ | msg <;>
        · rw [appendNotification_get, db_get_update, if_neg hne]
          rfl
  · rfl

lemma fire_status_self (s : EngineState) (id : Nat) (o : ExecOutcome) :
    db_status (fire_timer s id o) id = db_status s id ∨
    db_status (fire_timer s id o) id = some .booked ∨
    db_status (fire_timer s id o) id = some .failed := by
  unfold fire_timer
  split
  · rcases h : db_get_booking s id with _ | b
    · left
      unfold db_status
      have : db_get_booking { s with timers := s.timers.erase id } id =
          db_get_booking s id := rfl
      simp only [h, this]
    · simp only [h]
      have hget : db_get_booking { s with timers := s.timers.erase id } id =
          some b := h
      rcases o with ⟨court, bt⟩ | _ | _ | msg
      · right; left
        unfold db_status
        rw [appendNotification_get, db_get_update, if_pos rfl, hget]
        rfl
      · right; right
        unfold db_status
        rw [appendNotification_get, db_get_update, if_pos rfl, hget]
        rfl
      · right; right
        unfold db_status
        rw [appendNotification_get, db_get_update, if_pos rfl, hget]
        rfl
      · right; right
        unfold db_status
        rw [appendNotification_get, db_get_update, if_pos rfl, hget]
        rfl
  · left
    rfl

/-! ## Effect of create-then-schedule (the CSV import loop body) -/

lemma create_schedule_db (s : EngineState) (d tp : String) (tf : Option String)
    (t : DateTime) (hw : ∀ b ∈ s.dbBookings, b.id < s.nextId) :
    (schedule_booking (create_booking s d tp tf t).1 s.nextId).dbBookings =
      s.dbBookings ++ [⟨s.nextId, d, tp, tf, .scheduled, t, none, none, none⟩] := by
  have hget : db_get_booking (create_booking s d tp tf t).1 s.nextId =
      some ⟨s.nextId, d, tp, tf, .pending, t, none, none, none⟩ :=
    create_get_new s d tp tf t (fun b hb => Nat.ne_of_lt (hw b hb))
  unfold schedule_booking
  rw [hget]
  simp only []
  rw [update_dbBookings_map]
  show ((create_booking s d tp tf t).1.dbBookings.map _) = _
  rw [create_dbBookings, List.map_append]
  have hold : s.dbBookings.map
      (fun b => if b.id == s.nextId then updateRow .scheduled none none none b else b) =
      s.dbBookings := by
    have := List.map_congr_left (l := s.dbBookings)
      (f := fun b => if b.id == s.nextId then updateRow .scheduled none none none b else b)
      (g := id)
      (fun b hb => by
        have : (b.id == s.nextId) = false := by
          simp
          exact Nat.ne_of_lt (hw b hb)
        simp [this])
    rw [this, List.map_id]
  rw [hold]
  simp only [List.map_cons, List.map_nil, beq_self_eq_true, if_true]
  rfl

lemma create_schedule_nextId (s : EngineState) (d tp : String)
    (tf : Option String) (t : DateTime) :
    (schedule_booking (create_booking s d tp tf t).1 s.nextId).nextId =
      s.nextId + 1 := by
  rw [schedule_nextId, create_nextId]

lemma import_fold_db (pre : Nat) (now : DateTime) (rows : List CsvRow) :
    ∀ (s : EngineState) (added skipped : Nat) (errors : List String),
      (∀ b ∈ s.dbBookings, b.id < s.nextId) →
      (rows.foldl (import_row pre now) (s, added, skipped, errors)).1.dbBookings =
        s.dbBookings ++ scheduledRowsFrom pre now s.nextId rows := by
  induction rows with
  | nil =>
    intro s a k e hw
    unfold scheduledRowsFrom
    simp
  | cons r rs ih =>
    intro s a k e hw
    rw [List.foldl_cons]
    rcases hc : calculate_execution_time pre r.date with _ | t
    · have hstep : import_row pre now (s, a, k, e) r = (s, a, k, e ++ [r.date]) := by
        unfold import_row
        rw [hc]
      have hrows : scheduledRowsFrom pre now s.nextId (r :: rs) =
          scheduledRowsFrom pre now s.nextId rs := by
        conv_lhs => unfold scheduledRowsFrom
        simp only [hc]
      rw [hstep, ih s a k (e ++ [r.date]) hw, hrows]
    · by_cases hl : DateTime.ltb t now
      · have hstep : import_row pre now (s, a, k, e) r = (s, a, k + 1, e) := by
          unfold import_row
          rw [hc]
          simp only [hl, if_true]
        have hrows : scheduledRowsFrom pre now s.nextId (r :: rs) =
            scheduledRowsFrom pre now s.nextId rs := by
          conv_lhs => unfold scheduledRowsFrom
          simp only [hc, hl, if_true]
        rw [hstep, ih s a (k + 1) e hw, hrows]
      · have hstep : import_row pre now (s, a, k, e) r =
            (schedule_booking (create_booking s r.date r.time_primary
              r.time_fallback t).1 s.nextId, a + 1, k, e) := by
          unfold import_row
          rw [hc]
          simp only [hl, Bool.false_eq_true, if_false]
          rw [create_snd]
        have hdb := create_schedule_db s r.date r.time_primary r.time_fallback t hw
        have hni := create_schedule_nextId s r.date r.time_primary r.time_fallback t
        have hw' : ∀ b ∈ (schedule_booking (create_booking s r.date r.time_primary
            r.time_fallback t).1 s.nextId).dbBookings,
            b.id < (schedule_booking (create_booking s r.date r.time_primary
              r.time_fallback t).1 s.nextId).nextId := by
          rw [hdb, hni]
          intro b hb
          rcases List.mem_append.mp hb with h | h
          · exact Nat.lt_succ_of_lt (hw b h)
          · rcases List.mem_singleton.mp h with rfl
            exact Nat.lt_succ_self _
        have hrows : scheduledRowsFrom pre now s.nextId (r :: rs) =
            ⟨s.nextId, r.date, r.time_primary, r.time_fallback, .scheduled, t,
              none, none, none⟩ :: scheduledRowsFrom pre now (s.nextId + 1) rs := by
          conv_lhs => unfold scheduledRowsFrom
          simp only [hc]
          rw [if_neg hl]
        rw [hstep, ih _ (a + 1) k e hw', hdb, hni, List.append_assoc, hrows]
        rfl

lemma Date.ltb_self (d : Date) : Date.ltb d d = false := by
  unfold Date.ltb
  simp

lemma DateTime.not_ltb_midnight_same_day (now : DateTime) :
    DateTime.ltb now ⟨now.date, 0, 0, 0⟩ = false := by
  unfold DateTime.ltb
  rw [Date.ltb_self]
  simp

/-! ## Claims -/

/-- C10: `parse_time_to_24hr` fails exactly when the trimmed, lowercased
input does not begin with the `h[:mm](am|pm)` pattern (optional
whitespace allowed before the meridiem, as in the source regex); trailing
characters after the meridiem are ignored ("7pm extra" parses as
19:00:00), and the hour is not range-checked ("13pm" yields the
out-of-range "25:00:00" rather than an error). -/
theorem parse_time_grammar_characterization :
    (∀ s : String, (parse_time_to_24hr s).isSome =
      startsWithTimeGrammar (pyLower (pyStrip s)).data) ∧
    parse_time_to_24hr "7pm extra" = some "19:00:00" ∧
    parse_time_to_24hr "13pm" = some "25:00:00" := by
  refine ⟨fun s => ?_, by decide, by decide⟩
  unfold parse_time_to_24hr
  rw [← matchTimePattern_isSome]
  rcases hm : matchTimePattern (pyLower (pyStrip s)).data with _ | ⟨h, m, p⟩ <;>
    simp [hm]

/-- C2 counterexample: the claim predicts `execute_at = 2026-02-01T23:50`
for the row `{2026-02-15, 7pm, 8pm, Book}` with a 10-minute offset, but
`calculate_execution_time` subtracts fifteen days, producing
2026-01-31T23:50 instead. -/
theorem execute_time_example_counterexample :
    calculate_execution_time 10 "2026-02-15" =
      some ⟨⟨2026, 1, 31⟩, 23, 50, 0⟩ ∧
    (⟨⟨2026, 1, 31⟩, 23, 50, 0⟩ : DateTime) ≠ ⟨⟨2026, 2, 1⟩, 23, 50, 0⟩ := by
  decide

/-- C2 amended: `calculate_execution_time` is deterministic and equals
the spec formula with the lead fixed at fifteen days: `target_date - 15`
days at `(24:00 - offset)`; importing the single row
`{2026-02-15, 7pm, 8pm, Book}` with offset 10 minutes yields a Booking
with `status=scheduled` and `execute_at=2026-01-31T23:50:00`. -/
theorem calculate_execution_time_formula :
    (∀ (ds : String) (target : Date), strptimeYMD ds = some target →
      calculate_execution_time 10 ds =
        some (spec_compute_execute_at target 15 10)) ∧
    (add_bookings_from_csv 10 initialState ⟨⟨2026, 1, 1⟩, 0, 0, 0⟩
      "Date,Time1,Time2,Status\n2026-02-15,7pm,8pm,Book").toOption.map
      (fun r => r.1.dbBookings) =
      some [⟨1, "2026-02-15", "7pm", some "8pm", .scheduled,
        ⟨⟨2026, 1, 31⟩, 23, 50, 0⟩, none, none, none⟩] := by
  refine ⟨fun ds target h => ?_, by decide⟩
  unfold calculate_execution_time spec_compute_execute_at
  rw [h]

/-- C2 amended, witness at the example date. -/
theorem calculate_execution_time_formula_witness :
    calculate_execution_time 10 "2026-02-15" =
      some (spec_compute_execute_at ⟨2026, 2, 15⟩ 15 10) :=
  calculate_execution_time_formula.1 "2026-02-15" ⟨2026, 2, 15⟩ (by decide)

/-- C4 counterexample: `Database.create_booking` accepts the malformed
time option "noon" (which `parse_time_to_24hr` rejects) and stores it
verbatim in a pending row — creation performs no time validation at
all. -/
theorem create_accepts_malformed_time :
    parse_time_to_24hr "noon" = none ∧
    (create_booking initialState "2026-02-15" "noon" none
      ⟨⟨2026, 1, 31⟩, 23, 50, 0⟩).2 = 1 ∧
    db_get_booking (create_booking initialState "2026-02-15" "noon" none
      ⟨⟨2026, 1, 31⟩, 23, 50, 0⟩).1 1 =
      some ⟨1, "2026-02-15", "noon", none, .pending,
        ⟨⟨2026, 1, 31⟩, 23, 50, 0⟩, none, none, none⟩ := by
  decide

/-- C4 amended: booking creation stores the time options verbatim without
parsing them; a malformed option is first discovered during the attempt,
when `parse_time_to_24hr` raises inside `find_and_click_time_slot`, whose
exception handler reports the slot as not found. -/
theorem malformed_time_discovered_at_execution :
    (∀ (s : EngineState) (d tp : String) (tf : Option String) (t : DateTime),
      (∀ b ∈ s.dbBookings, b.id ≠ s.nextId) →
      (create_booking s d tp tf t).2 = s.nextId ∧
      db_get_booking (create_booking s d tp tf t).1 s.nextId =
        some ⟨s.nextId, d, tp, tf, .pending, t, none, none, none⟩) ∧
    (∀ (d tp : String) (slots : List SlotDescriptor),
      parse_time_to_24hr tp = none →
      find_and_click_time_slot d tp slots = (false, none)) := by
  constructor
  · intro s d tp tf t hw
    exact ⟨create_snd s d tp tf t, create_get_new s d tp tf t hw⟩
  · intro d tp slots h
    unfold find_and_click_time_slot
    rw [h]

/-- C4 amended, witness: creating a booking with time option "noon" on a
fresh deployment stores it verbatim, and the canonicalizer's failure is
only visible to the slot search. -/
theorem malformed_time_discovered_at_execution_witness :
    ((create_booking initialState "2026-02-15" "noon" none
        ⟨⟨2026, 1, 31⟩, 23, 50, 0⟩).2 = initialState.nextId ∧
      db_get_booking (create_booking initialState "2026-02-15" "noon" none
        ⟨⟨2026, 1, 31⟩, 23, 50, 0⟩).1 initialState.nextId =
        some ⟨initialState.nextId, "2026-02-15", "noon", none, .pending,
          ⟨⟨2026, 1, 31⟩, 23, 50, 0⟩, none, none, none⟩) ∧
    find_and_click_time_slot "2026-02-15" "noon" [] = (false, none) :=
  ⟨malformed_time_discovered_at_execution.1 initialState "2026-02-15" "noon"
      none ⟨⟨2026, 1, 31⟩, 23, 50, 0⟩ (by decide),
    malformed_time_discovered_at_execution.2 "2026-02-15" "noon" [] (by decide)⟩

/-- C6 counterexample: with the claim's availability labels (written
`YYYY-MM-DD HH:MM:SS`), primary "7pm" and fallback "8pm", selection
reports unavailable instead of choosing the 20:00:00 descriptor — the
engine compares against `DD/MM/YYYY HH:MM:SS` labels, which the claim's
labels never match. -/
theorem slot_selection_label_counterexample :
    execute_booking_selection "2026-02-15" "7pm" (some "8pm")
      [⟨"2026-02-15 19:00:00", some "Court 1", 1, 1⟩,
       ⟨"2026-02-15 20:00:00", some "Court 2", 0, 1⟩] = .unavailable := by
  decide

/-- C6 amended: selection tries the primary option first and consults the
fallback exactly when the primary's parse-and-match fails (descriptor
absent, unmatched or full); descriptor labels are in `DD/MM/YYYY
HH:MM:SS` form, and with labels written that way the example selects the
20:00:00 descriptor via the fallback. -/
theorem slot_selection_policy :
    (∀ (d p : String) (fb : Option String) (slots : List SlotDescriptor),
      execute_booking_selection d p fb slots =
        if optionUsable d p slots then .selected p (optionCourt d p slots)
        else
          match fb with
          | some f =>
            if optionUsable d f slots then .selected f (optionCourt d f slots)
            else .unavailable
          | none => .unavailable) ∧
    execute_booking_selection "2026-02-15" "7pm" (some "8pm")
      [⟨"15/02/2026 19:00:00", some "Court 1", 1, 1⟩,
       ⟨"15/02/2026 20:00:00", some "Court 2", 0, 1⟩] =
      .selected "8pm" (some "Court 2") := by
  refine ⟨fun d p fb slots => ?_, by decide⟩
  unfold execute_booking_selection
  by_cases h1 : optionUsable d p slots = true
  · simp only [find_and_click_fst, h1, if_true,
      find_and_click_snd_of_usable d p slots h1]
  · have h1f : optionUsable d p slots = false := Bool.eq_false_iff.mpr h1
    rcases fb with _ | f
    · simp only [find_and_click_fst, h1f, Bool.false_eq_true, if_false]
    · by_cases h2 : optionUsable d f slots = true
      · simp only [find_and_click_fst, h1f, h2, Bool.false_eq_true, if_false,
          if_true, find_and_click_snd_of_usable d f slots h2]
      · have h2f : optionUsable d f slots = false := Bool.eq_false_iff.mpr h2
        simp only [find_and_click_fst, h1f, h2f, Bool.false_eq_true, if_false]

/-- C8 counterexample: an attempt whose barrier is reached at
2026-01-30T10:00 for target date 2026-02-15 (unlock instant
2026-02-01T00:00) proceeds immediately — the availability refresh fires
before the resource-unlock instant, because the barrier consults only
the wall clock, never the booking's date. -/
theorem timing_barrier_counterexample :
    DateTime.ltb ⟨⟨2026, 1, 30⟩, 10, 0, 0⟩ (unlock_instant ⟨2026, 2, 15⟩) = true ∧
    barrier_resume ⟨⟨2026, 1, 30⟩, 10, 0, 0⟩ = ⟨⟨2026, 1, 30⟩, 10, 0, 0⟩ ∧
    DateTime.ltb (barrier_resume ⟨⟨2026, 1, 30⟩, 10, 0, 0⟩)
      (unlock_instant ⟨2026, 2, 15⟩) = true := by
  decide

/-- C8 amended: the barrier depends only on the wall clock — with the
local hour below 12 it proceeds immediately (the warning branch), and
with the hour at least 12 it suspends until the upcoming midnight; in
the scheduled case, where the barrier is reached on the day fifteen days
before a valid target date (execute_at is 23:50 of that day), that
midnight is exactly the unlock instant, so the refresh is not early. -/
theorem timing_barrier_behavior :
    (∀ now : DateTime, now.hour < 12 → barrier_resume now = now) ∧
    (∀ (now : DateTime) (target : Date), target.Valid →
      now.date = Date.subDays target 15 → 12 ≤ now.hour →
      barrier_resume now = unlock_instant target) := by
  constructor
  · intro now h
    have hm : barrier_midnight now = ⟨now.date, 0, 0, 0⟩ := by
      unfold barrier_midnight
      rw [if_neg (by omega)]
    unfold barrier_resume
    rw [hm, DateTime.not_ltb_midnight_same_day]
    simp
  · intro now target hv hdate hhour
    have hm : barrier_midnight now = ⟨now.date.next, 0, 0, 0⟩ := by
      unfold barrier_midnight
      rw [if_pos hhour]
    unfold barrier_resume
    rw [hm]
    have hlt : DateTime.ltb now ⟨now.date.next, 0, 0, 0⟩ = true := by
      unfold DateTime.ltb
      rw [Date.ltb_next]
      rfl
    rw [if_pos hlt]
    unfold unlock_instant
    have : now.date.next = Date.subDays target 14 := by
      rw [hdate]
      show ((Date.subDays target 14).prev).next = Date.subDays target 14
      exact Date.next_prev (Date.subDays_valid hv 14)
    rw [this]

/-- C8 amended, witness: at 2026-01-31T23:50 (the scheduled wake-up for
target 2026-02-15) the barrier resumes exactly at the unlock instant;
at 2026-02-01T00:50 it proceeds immediately. -/
theorem timing_barrier_behavior_witness :
    barrier_resume ⟨⟨2026, 2, 1⟩, 0, 50, 0⟩ = ⟨⟨2026, 2, 1⟩, 0, 50, 0⟩ ∧
    barrier_resume ⟨⟨2026, 1, 31⟩, 23, 50, 0⟩ = unlock_instant ⟨2026, 2, 15⟩ :=
  ⟨timing_barrier_behavior.1 ⟨⟨2026, 2, 1⟩, 0, 50, 0⟩ (by decide),
    timing_barrier_behavior.2 ⟨⟨2026, 1, 31⟩, 23, 50, 0⟩ ⟨2026, 2, 15⟩
      (by decide) (by decide) (by decide)⟩

/-- C9 counterexample: deleting a booking id that is not in the
relational store reports success (the scheduler's `delete_booking`
returns True without an existence check), not a not-found condition. -/
theorem delete_missing_reports_success :
    db_get_booking initialState 1 = none ∧
    api_delete_booking initialState 1 = (initialState, .ok) := by
  decide

/-- C9 amended: for a missing booking id, `GET` and the cancel endpoint
return not-found (and cancel leaves the state unchanged), but the delete
endpoint reports success regardless of existence. -/
theorem api_missing_id_behavior :
    ∀ (s : EngineState) (id : Nat), db_get_booking s id = none →
      api_get_booking s id = .notFound ∧
      (api_cancel_booking s id).2 = .notFound ∧
      (api_cancel_booking s id).1 = s ∧
      (api_delete_booking s id).2 = .ok := by
  intro s id h
  refine ⟨?_, ?_, ?_, rfl⟩
  · unfold api_get_booking
    rw [h]
    rfl
  · unfold api_cancel_booking cancel_booking
    rw [h]
    rfl
  · unfold api_cancel_booking cancel_booking
    rw [h]

/-- C9 amended, witness on the empty store. -/
theorem api_missing_id_behavior_witness :
    api_get_booking initialState 1 = .notFound ∧
    (api_cancel_booking initialState 1).2 = .notFound ∧
    (api_cancel_booking initialState 1).1 = initialState ∧
    (api_delete_booking initialState 1).2 = .ok :=
  api_missing_id_behavior initialState 1 (by decide)

/-- C1: evaluation at the failing input.  A booking present only in the
durable mirror (document in status `scheduled`, id in the pending set,
`execute_at` in the past, no relational row) is untouched by the startup
routine: `startup_event` only calls `reschedule_pending_bookings`, which
reads the relational store alone, so the booking is neither hydrated nor
finalized — it is silently dropped. -/
theorem startup_drops_mirror_only_booking :
    redis_get_booking mirrorOnlyState 1 = some mirrorOnlyBooking ∧
    mirrorOnlyBooking.status = .scheduled ∧
    mirrorOnlyState.redisQueue = [1] ∧
    db_get_booking mirrorOnlyState 1 = none ∧
    DateTime.ltb mirrorOnlyBooking.execute_at ⟨⟨2026, 1, 2⟩, 0, 50, 0⟩ = true ∧
    startup_event mirrorOnlyState ⟨⟨2026, 1, 2⟩, 0, 50, 0⟩ = mirrorOnlyState := by
  decide

/-- C5 counterexample: a scheduled booking whose `execute_at` passed
during downtime is finalized failed with `error_message` exactly
"Execution time passed" — not the claimed "execution time passed during
downtime" — and the recovery pass dispatches no notification at all. -/
theorem recovery_reason_counterexample :
    db_status (reschedule_pending_bookings staleState
      ⟨⟨2026, 1, 2⟩, 0, 50, 0⟩) 1 = some .failed ∧
    (db_get_booking (reschedule_pending_bookings staleState
      ⟨⟨2026, 1, 2⟩, 0, 50, 0⟩) 1).map (fun b => b.error_message) =
      some (some "Execution time passed") ∧
    ("Execution time passed" : String) ≠ "execution time passed during downtime" ∧
    (reschedule_pending_bookings staleState ⟨⟨2026, 1, 2⟩, 0, 50, 0⟩).notifications
      = [] := by
  decide

/-- C5 amended: at startup, each non-terminal booking in the relational
store whose `execute_at` already passed is finalized `failed` with error
message "Execution time passed" and no notification is dispatched;
each one still in the future has its timer registered again and its
status set back to `scheduled` (clearing `error_message`). -/
theorem recovery_behavior :
    ∀ (s : EngineState) (now : DateTime) (b : Booking),
      (s.dbBookings.map (fun x => x.id)).Nodup →
      db_get_booking s b.id = some b →
      b.status = .pending ∨ b.status = .scheduled →
      (reschedule_pending_bookings s now).notifications = s.notifications ∧
      (DateTime.ltb b.execute_at now = true →
        db_get_booking (reschedule_pending_bookings s now) b.id =
          some { b with status := .failed,
                        error_message := some "Execution time passed" }) ∧
      (DateTime.ltb b.execute_at now = false →
        db_get_booking (reschedule_pending_bookings s now) b.id =
          some { b with status := .scheduled, error_message := none } ∧
        b.id ∈ (reschedule_pending_bookings s now).timers) := by
  intro s now b hnd hb hst
  obtain ⟨l₁, l₂, heq, h1, h2⟩ := snapshot_split s b hnd hb hst
  have hfold := reschedule_fold_eval now b l₁ l₂ h1 h2 s hb
  refine ⟨?_, ?_, ?_⟩
  · unfold reschedule_pending_bookings
    exact reschedule_fold_notifications now _ s
  · intro hpast
    unfold reschedule_pending_bookings
    rw [heq]
    rw [if_pos hpast] at hfold
    exact hfold
  · intro hfut
    unfold reschedule_pending_bookings
    rw [heq]
    rw [if_neg (by simp [hfut])] at hfold
    exact ⟨hfold.1, hfold.2⟩

/-- C5 amended, witness: the stale booking is finalized with the
"Execution time passed" message at a startup one hour after its
execution instant. -/
theorem recovery_behavior_witness :
    db_get_booking (reschedule_pending_bookings staleState
      ⟨⟨2026, 1, 2⟩, 0, 50, 0⟩) staleScheduledBooking.id =
      some { staleScheduledBooking with
              status := .failed,
              error_message := some "Execution time passed" } :=
  (recovery_behavior staleState ⟨⟨2026, 1, 2⟩, 0, 50, 0⟩ staleScheduledBooking
    (by decide) (by decide) (by decide)).2.1 (by decide)

/-- C7 counterexample: a batch with one row whose directive is "Book" but
whose computed execution time lies in the past creates no Booking — the
row is skipped — so "a Booking is created iff the directive equals book"
fails; the skipped non-book rows of a batch are likewise never counted. -/
theorem book_row_not_created_counterexample :
    (parse_csv_content "Date,Time1,Time2,Status\n2026-02-15,7pm,8pm,Book").toOption =
      some [⟨"2026-02-15", "7pm", some "8pm"⟩] ∧
    (add_bookings_from_csv 10 initialState ⟨⟨2026, 10, 12⟩, 0, 0, 0⟩
      "Date,Time1,Time2,Status\n2026-02-15,7pm,8pm,Book").toOption.map
      (fun r => (r.1.dbBookings, r.2.added, r.2.skipped)) = some ([], 0, 1) := by
  decide

/-- C7 amended: during parsing a row survives iff it has `Date` and
`Time1` fields and its `Status` equals "book" case-insensitively (other
rows are dropped without being counted); the import then creates a
scheduled Booking exactly for each surviving row whose date parses and
whose execution time has not passed, collecting the other rows into the
skip/error counters without aborting the batch. -/
theorem csv_import_characterization :
    (∀ (header fields : List String),
      (csvRowEntry header fields).isSome =
        ((rowGet (cleanRow header fields) "Date").isSome &&
         (rowGet (cleanRow header fields) "Time1").isSome &&
         (pyLower ((rowGet (cleanRow header fields) "Status").getD "") == "book"))) ∧
    (∀ (pre : Nat) (s : EngineState) (now : DateTime) (content : String)
        (rows : List CsvRow),
      parse_csv_content content = .ok rows →
      (∀ b ∈ s.dbBookings, b.id < s.nextId) →
      ∃ s' summary,
        add_bookings_from_csv pre s now content = .ok (s', summary) ∧
        s'.dbBookings = s.dbBookings ++ scheduledRowsFrom pre now s.nextId rows ∧
        summary.total_processed = rows.length) := by
  constructor
  · intro header fields
    unfold csvRowEntry
    rcases hd : rowGet (cleanRow header fields) "Date" with _ | dv <;>
      rcases ht : rowGet (cleanRow header fields) "Time1" with _ | tv <;>
      simp [hd, ht]
    by_cases hbook :
        (pyLower ((rowGet (cleanRow header fields) "Status").getD "") == "book") = true <;>
      simp [hbook] <;> simpa using hbook
  · intro pre s now content rows hparse hw
    rcases hfold : rows.foldl (import_row pre now) (s, 0, 0, ([] : List String))
      with ⟨s', a, k, e⟩
    refine ⟨s', ⟨a, k, e, rows.length⟩, ?_, ?_, rfl⟩
    · unfold add_bookings_from_csv
      rw [hparse]
      simp only [hfold]
    · have hdb := import_fold_db pre now rows s 0 0 [] hw
      rw [hfold] at hdb
      exact hdb

/-- C7 amended, witness at the example batch. -/
theorem csv_import_characterization_witness :
    ∃ s' summary,
      add_bookings_from_csv 10 initialState ⟨⟨2026, 1, 1⟩, 0, 0, 0⟩
        "Date,Time1,Time2,Status\n2026-02-15,7pm,8pm,Book" = .ok (s', summary) ∧
      s'.dbBookings = initialState.dbBookings ++
        scheduledRowsFrom 10 ⟨⟨2026, 1, 1⟩, 0, 0, 0⟩ initialState.nextId
          [⟨"2026-02-15", "7pm", some "8pm"⟩] ∧
      summary.total_processed =
        ([⟨"2026-02-15", "7pm", some "8pm"⟩] : List CsvRow).length :=
  csv_import_characterization.2 10 initialState ⟨⟨2026, 1, 1⟩, 0, 0, 0⟩
    "Date,Time1,Time2,Status\n2026-02-15,7pm,8pm,Book"
    [⟨"2026-02-15", "7pm", some "8pm"⟩] (by rfl) (by decide)

/-- C3 counterexample: from a fresh deployment, create + schedule + a
successful timer firing put booking 1 in the terminal status `booked`;
the cancel operation then moves it out of that terminal status to
`cancelled` — a transition the state machine of §4.2 does not allow and
that is not a deletion. -/
theorem terminal_status_escape_counterexample :
    db_status bookedRunState 1 = some .booked ∧
    Status.isTerminal .booked = true ∧
    db_status (cancel_booking bookedRunState 1).1 1 = some .cancelled := by
  decide

/-- C3 amended: recovery, creation and timer firing never move a booking
out of a terminal status (given timers only exist for scheduled bookings
and ids are unique), but `cancel_booking` sets any existing booking to
`cancelled` and `schedule_booking` sets any existing booking to
`scheduled` without checking the current status, so those two operations
(and deletion) are the only escapes from a terminal status; no operation
ever returns an existing booking's status to `pending`. -/
theorem booking_status_transition_characterization :
    (∀ (s : EngineState) (op : Op) (id : Nat) (st : Status),
      WfTimers s → (s.dbBookings.map (fun x => x.id)).Nodup →
      db_status s id = some st → st.isTerminal = true →
      db_status (op.step s) id = some st ∨
      (op = .cancel id ∧ db_status (op.step s) id = some .cancelled) ∨
      (op = .schedule id ∧ db_status (op.step s) id = some .scheduled) ∨
      (op = .delete id ∧ db_status (op.step s) id = none)) ∧
    (∀ (s : EngineState) (op : Op) (id : Nat),
      db_status (op.step s) id = some .pending →
      db_status s id = some .pending ∨ db_status s id = none) := by
  constructor
  · intro s op id st hwt hnd hstat hterm
    obtain ⟨row, hrow, hrs⟩ : ∃ row, db_get_booking s id = some row ∧
        row.status = st := by
      unfold db_status at hstat
      exact Option.map_eq_some'.mp hstat
    cases op with
    | create d tp tf t =>
      left
      simp only [Op.step]
      unfold db_status
      have hkeep : db_get_booking (create_booking s d tp tf t).1 id = some row := by
        unfold db_get_booking at hrow ⊢
        rw [create_dbBookings, find?_append, hrow]
      rw [hkeep]
      simp [hrs]
    | schedule id' =>
      simp only [Op.step]
      rcases hg : db_get_booking s id' with _ | bfound
      · left
        have hstep : schedule_booking s id' = s := by
          unfold schedule_booking
          rw [hg]
        rw [hstep]
        exact hstat
      · by_cases hid : id = id'
        · subst hid
          right; right; left
          refine ⟨rfl, ?_⟩
          unfold db_status
          rw [schedule_get, if_neg (by simp [hg]), if_pos rfl, hrow]
          rfl
        · left
          unfold db_status
          rw [schedule_get, if_neg (by simp [hg]), if_neg hid, hrow]
          simp [hrs]
    | cancel id' =>
      simp only [Op.step]
      rcases hg : db_get_booking s id' with _ | bfound
      · left
        have hstep : (cancel_booking s id').1 = s := by
          unfold cancel_booking
          rw [hg]
        rw [hstep]
        exact hstat
      · by_cases hid : id = id'
        · subst hid
          right; left
          refine ⟨rfl, ?_⟩
          unfold db_status
          rw [cancel_get, if_neg (by simp [hg]), if_pos rfl, hrow]
          rfl
        · left
          unfold db_status
          rw [cancel_get, if_neg (by simp [hg]), if_neg hid, hrow]
          simp [hrs]
    | delete id' =>
      by_cases hid : id = id'
      · subst hid
        right; right; right
        refine ⟨rfl, ?_⟩
        simp only [Op.step]
        unfold db_status
        rw [delete_get_self]
        rfl
      · left
        simp only [Op.step]
        unfold db_status
        rw [delete_get_other s id' id hid, hrow]
        simp [hrs]
    | fire id' o =>
      by_cases hid : id = id'
      · subst hid
        by_cases hc : s.timers.contains id = true
        · exfalso
          have hmem : id ∈ s.timers := by
            rw [← List.elem_iff]
            exact hc
          have hsched := hwt id hmem
          unfold db_status at hsched
          rw [hrow] at hsched
          have hst2 : st = .scheduled := by
            have : row.status = .scheduled := by simpa using hsched
            rw [hrs] at this
            exact this
          rw [hst2] at hterm
          exact absurd hterm (by decide)
        · left
          have hfs : fire_timer s id o = s := by
            unfold fire_timer
            rw [if_neg (by simpa using hc)]
          simp only [Op.step]
          rw [hfs]
          exact hstat
      · left
        simp only [Op.step]
        unfold db_status
        rw [fire_get_other s id' o id hid, hrow]
        simp [hrs]
    | recover now =>
      left
      have hrid : row.id = id := by
        have := List.find?_some hrow
        simpa using this
      have hrowdb : row ∈ s.dbBookings := List.mem_of_find?_eq_some hrow
      have hids : ∀ x ∈ (s.dbBookings.filter (fun y => y.status == .pending)) ++
          (s.dbBookings.filter (fun y => y.status == .scheduled)), x.id ≠ id := by
        intro x hx hxid
        have hxdb : x ∈ s.dbBookings := by
          rcases List.mem_append.mp hx with h | h
          · exact (List.mem_filter.mp h).1
          · exact (List.mem_filter.mp h).1
        have hxrow : x = row :=
          List.inj_on_of_nodup_map hnd hxdb hrowdb (by rw [hxid, hrid])
        rcases List.mem_append.mp hx with h | h
        · have hp := (List.mem_filter.mp h).2
          rw [hxrow, hrs] at hp
          have : st = .pending := by simpa using hp
          rw [this] at hterm
          exact absurd hterm (by decide)
        · have hp := (List.mem_filter.mp h).2
          rw [hxrow, hrs] at hp
          have : st = .scheduled := by simpa using hp
          rw [this] at hterm
          exact absurd hterm (by decide)
      simp only [Op.step]
      unfold reschedule_pending_bookings db_status
      rw [reschedule_fold_get_other now _ id hids s, hrow]
      simp [hrs]
  · intro s op id hafter
    cases op with
    | create d tp tf t =>
      simp only [Op.step] at hafter
      unfold db_status at hafter
      unfold db_get_booking at hafter
      rw [create_dbBookings, find?_append] at hafter
      rcases hf : s.dbBookings.find? (fun b => b.id == id) with _ | row
      · right
        unfold db_status db_get_booking
        rw [hf]
        rfl
      · left
        rw [hf] at hafter
        unfold db_status db_get_booking
        rw [hf]
        exact hafter
    | schedule id' =>
      simp only [Op.step] at hafter
      unfold db_status at hafter
      rw [schedule_get] at hafter
      by_cases hg : db_get_booking s id' = none
      · rw [if_pos hg] at hafter
        left
        exact hafter
      · rw [if_neg hg] at hafter
        by_cases hid : id = id'
        · rw [if_pos hid] at hafter
          exfalso
          rcases hx : db_get_booking s id with _ | bb <;> rw [hx] at hafter
          · simp at hafter
          · simp [updateRow_status] at hafter
        · rw [if_neg hid] at hafter
          left
          exact hafter
    | cancel id' =>
      simp only [Op.step] at hafter
      unfold db_status at hafter
      rw [cancel_get] at hafter
      by_cases hg : db_get_booking s id' = none
      · rw [if_pos hg] at hafter
        left
        exact hafter
      · rw [if_neg hg] at hafter
        by_cases hid : id = id'
        · rw [if_pos hid] at hafter
          exfalso
          rcases hx : db_get_booking s id with _ | bb <;> rw [hx] at hafter
          · simp at hafter
          · simp [updateRow_status] at hafter
        · rw [if_neg hid] at hafter
          left
          exact hafter
    | delete id' =>
      by_cases hid : id = id'
      · subst hid
        simp only [Op.step] at hafter
        unfold db_status at hafter
        rw [delete_get_self] at hafter
        simp at hafter
      · left
        simp only [Op.step] at hafter
        unfold db_status at hafter
        rw [delete_get_other s id' id hid] at hafter
        exact hafter
    | fire id' o =>
      by_cases hid : id = id'
      · subst hid
        rcases fire_status_self s id o with h | h | h
        · left
          simp only [Op.step] at hafter
          rw [h] at hafter
          exact hafter
        · simp only [Op.step] at hafter
          rw [hafter] at h
          simp at h
        · simp only [Op.step] at hafter
          rw [hafter] at h
          simp at h
      · left
        simp only [Op.step] at hafter
        unfold db_status at hafter
        rw [fire_get_other s id' o id hid] at hafter
        exact hafter
    | recover now =>
      simp only [Op.step] at hafter
      unfold reschedule_pending_bookings at hafter
      rcases reschedule_fold_status_cases now
          ((s.dbBookings.filter (fun b => b.status == .pending)) ++
            (s.dbBookings.filter (fun b => b.status == .scheduled))) id s
        with h | ⟨bb, hbb, hs⟩
      · left
        unfold db_status at hafter ⊢
        rw [h] at hafter
        exact hafter
      · exfalso
        unfold db_status at hafter
        rw [hbb] at hafter
        have : bb.status = .pending := by simpa using hafter
        rcases hs with h' | h' <;> rw [h'] at this <;> cases this

/-- C3 amended, witness: cancelling the booked booking of the concrete
run falls into the cancel disjunct of the characterization. -/
theorem booking_status_transition_characterization_witness :
    db_status ((Op.cancel 1).step bookedRunState) 1 = some .booked ∨
    (Op.cancel 1 = Op.cancel 1 ∧
      db_status ((Op.cancel 1).step bookedRunState) 1 = some .cancelled) ∨
    (Op.cancel 1 = Op.schedule 1 ∧
      db_status ((Op.cancel 1).step bookedRunState) 1 = some .scheduled) ∨
    (Op.cancel 1 = Op.delete 1 ∧
      db_status ((Op.cancel 1).step bookedRunState) 1 = none) :=
  booking_status_transition_characterization.1 bookedRunState (Op.cancel 1) 1
    .booked (by unfold WfTimers; decide) (by decide) (by decide) (by decide)
